import Mathlib

/-!
Verification of the APLITE UPI issuance and resolution engine.

This file embeds, in Lean, the code of `app/utils/upi.py`,
`app/utils/crypto.py` (at its library boundary), `app/db/queries.py`
(UPI-relevant query helpers) and `app/routes/resolve.py` of the APLITE
backend, and proves/refutes the frozen specification claims about them.

Conventions of the embedding:
* Python `bytes` are `List Nat` (each element a byte value 0..255).
* Python `str` values that the codec manipulates are `List Char`
  (all relevant strings are ASCII; `str.upper()` is modeled as
  per-character ASCII uppercasing `Char.toUpper`).
* `hashlib.sha256`, `hmac.new(..., sha256)` and `base64.b32encode` are
  implemented bit-faithfully below (validated against the standard
  test vectors at the end of the file).
* AES-GCM (`cryptography.hazmat...AESGCM` used by
  `app/utils/crypto.py::decrypt_value`) is an external library; it is
  modeled as an abstract oracle `dec : String → String → Option String`
  (nonce, ciphertext ↦ plaintext, `none` = raised `InvalidTag`/error),
  which is the exact interface `queries._decrypt_payment_account`
  consumes through its `try/except`.
* The database is a record of in-memory tables; each query helper of
  `queries.py` is translated to a lookup over those tables, keeping the
  SQL `where` clauses verbatim as predicates.
-/

set_option maxRecDepth 100000

namespace Aplite

/-! ### 32-bit word helpers (SHA-256 arithmetic) -/

def w32 : Nat := 4294967296

def mask32 : Nat := 4294967295

def add32 (a b : Nat) : Nat := (a + b) % w32

def rotr (n x : Nat) : Nat := ((x >>> n) ||| ((x <<< (32 - n)) &&& mask32))

def chOf (e f g : Nat) : Nat := (e &&& f) ^^^ ((e ^^^ mask32) &&& g)

def majOf (a b c : Nat) : Nat := (a &&& b) ^^^ (a &&& c) ^^^ (b &&& c)

def bsig0 (a : Nat) : Nat := rotr 2 a ^^^ rotr 13 a ^^^ rotr 22 a

def bsig1 (e : Nat) : Nat := rotr 6 e ^^^ rotr 11 e ^^^ rotr 25 e

def ssig0 (x : Nat) : Nat := rotr 7 x ^^^ rotr 18 x ^^^ (x >>> 3)

def ssig1 (x : Nat) : Nat := rotr 17 x ^^^ rotr 19 x ^^^ (x >>> 10)

/-! ### SHA-256 (FIPS 180-4), bytes in, 32 bytes out -/

def shaK : List Nat :=
  [1116352408, 1899447441, 3049323471, 3921009573, 961987163, 1508970993, 2453635748, 2870763221,
   3624381080, 310598401, 607225278, 1426881987, 1925078388, 2162078206, 2614888103, 3248222580,
   3835390401, 4022224774, 264347078, 604807628, 770255983, 1249150122, 1555081692, 1996064986,
   2554220882, 2821834349, 2952996808, 3210313671, 3336571891, 3584528711, 113926993, 338241895,
   666307205, 773529912, 1294757372, 1396182291, 1695183700, 1986661051, 2177026350, 2456956037,
   2730485921, 2820302411, 3259730800, 3345764771, 3516065817, 3600352804, 4094571909, 275423344,
   430227734, 506948616, 659060556, 883997877, 958139571, 1322822218, 1537002063, 1747873779,
   1955562222, 2024104815, 2227730452, 2361852424, 2428436474, 2756734187, 3204031479, 3329325298]

structure Hash8 where
  h0 : Nat
  h1 : Nat
  h2 : Nat
  h3 : Nat
  h4 : Nat
  h5 : Nat
  h6 : Nat
  h7 : Nat
deriving DecidableEq

def shaH0 : Hash8 :=
  ⟨1779033703, 3144134277, 1013904242, 2773480762, 1359893119, 2600822924, 528734635, 1541459225⟩

structure Regs where
  a : Nat
  b : Nat
  c : Nat
  d : Nat
  e : Nat
  f : Nat
  g : Nat
  h : Nat
deriving DecidableEq

def shaRound (r : Regs) (wk : Nat × Nat) : Regs :=
  let t1 := (r.h + bsig1 r.e + chOf r.e r.f r.g + wk.2 + wk.1) % w32
  let t2 := (bsig0 r.a + majOf r.a r.b r.c) % w32
  ⟨(t1 + t2) % w32, r.a, r.b, r.c, (r.d + t1) % w32, r.e, r.f, r.g⟩

/-- Big-endian 4-byte groups of a block become 32-bit words. -/
def toWords : List Nat → List Nat
  | a :: b :: c :: d :: rest => (((a * 256 + b) * 256 + c) * 256 + d) :: toWords rest
  | _ => []

/-- Extension of the 16 block words to the 64-word message schedule. -/
def scheduleW (ws16 : List Nat) : List Nat :=
  (List.range 48).foldl
    (fun ws _ =>
      ws ++ [(ws.getD (ws.length - 16) 0 + ssig0 (ws.getD (ws.length - 15) 0) +
              ws.getD (ws.length - 7) 0 + ssig1 (ws.getD (ws.length - 2) 0)) % w32])
    ws16

def compress (h : Hash8) (block : List Nat) : Hash8 :=
  let ws := scheduleW (toWords block)
  let r := (ws.zip shaK).foldl shaRound ⟨h.h0, h.h1, h.h2, h.h3, h.h4, h.h5, h.h6, h.h7⟩
  ⟨(h.h0 + r.a) % w32, (h.h1 + r.b) % w32, (h.h2 + r.c) % w32, (h.h3 + r.d) % w32,
   (h.h4 + r.e) % w32, (h.h5 + r.f) % w32, (h.h6 + r.g) % w32, (h.h7 + r.h) % w32⟩

/-- Big-endian 8-byte encoding of the 64-bit message bit length. -/
def beBytes8 (n : Nat) : List Nat :=
  [(n >>> 56) % 256, (n >>> 48) % 256, (n >>> 40) % 256, (n >>> 32) % 256,
   (n >>> 24) % 256, (n >>> 16) % 256, (n >>> 8) % 256, n % 256]

/-- Merkle–Damgård padding: 128, zeros to 56 mod 64, 64-bit big-endian bit count. -/
def shaPad (msg : List Nat) : List Nat :=
  msg ++ [128] ++ List.replicate ((120 - ((msg.length + 1) % 64)) % 64) 0 ++
    beBytes8 (8 * msg.length)

def wordBytes (x : Nat) : List Nat :=
  [(x >>> 24) % 256, (x >>> 16) % 256, (x >>> 8) % 256, x % 256]

def digestBytes (h : Hash8) : List Nat :=
  wordBytes h.h0 ++ wordBytes h.h1 ++ wordBytes h.h2 ++ wordBytes h.h3 ++
  wordBytes h.h4 ++ wordBytes h.h5 ++ wordBytes h.h6 ++ wordBytes h.h7

def sha256 (msg : List Nat) : List Nat :=
  let padded := shaPad msg
  let blocks := (List.range (padded.length / 64)).map (fun i => (padded.drop (64 * i)).take 64)
  digestBytes (blocks.foldl compress shaH0)

/-! ### HMAC-SHA256 (RFC 2104, block size 64) -/

def hmacSha256 (key msg : List Nat) : List Nat :=
  let key0 := if 64 < key.length then sha256 key else key
  let keyPadded := key0 ++ List.replicate (64 - key0.length) 0
  let inner := sha256 ((keyPadded.map (fun b => b ^^^ 54)) ++ msg)
  sha256 ((keyPadded.map (fun b => b ^^^ 92)) ++ inner)

/-! ### Base-32 encoding (RFC 4648 alphabet), `=`-padding already stripped

`base64.b32encode(x).decode("ascii").rstrip("=")` emits one character per
5-bit group of the byte stream read MSB-first, the last group zero-filled. -/

def b32Alphabet : List Char := "ABCDEFGHIJKLMNOPQRSTUVWXYZ234567".toList

/-- Value of the i-th 5-bit group of a big-endian bit stream of bytes. -/
def b32GroupVal (bs : List Nat) (i : Nat) : Nat :=
  let bit := fun (j : Nat) => if ((bs.getD (j / 8) 0) >>> (7 - j % 8)) % 2 = 1 then 1 else 0
  16 * bit (5 * i) + 8 * bit (5 * i + 1) + 4 * bit (5 * i + 2) + 2 * bit (5 * i + 3) +
    bit (5 * i + 4)

def b32encodeStripped (bs : List Nat) : List Char :=
  (List.range ((8 * bs.length + 4) / 5)).map (fun i => b32Alphabet.getD (b32GroupVal bs i) 'A')

/-! ### `app/utils/upi.py` — the UPI codec and signing helpers -/

def ALPHABET : List Char := "ABCDEFGHIJKLMNOPQRSTUVWXYZ0123456789".toList

def CORE_SEGMENT_LENGTH : Nat := 4

def NAMESPACE_LENGTH : Nat := 2

def PAYMENT_INDEX_LENGTH : Nat := 2

def SIGNATURE_LENGTH : Nat := 6

def UPI_LENGTH : Nat :=
  NAMESPACE_LENGTH + PAYMENT_INDEX_LENGTH + CORE_SEGMENT_LENGTH + SIGNATURE_LENGTH

/-- Decimal digit character, `digitChar n = str(n)` for `n < 10`. -/
def digitChar (n : Nat) : Char := Char.ofNat (48 + n)

/-- Fuel-driven decimal printer (structural recursion so the kernel can
evaluate it); `strOfNatAux f n` equals `str(n)` whenever `n < f`. -/
def strOfNatAux : Nat → Nat → List Char
  | 0, _ => []
  | fuel + 1, n =>
    if n < 10 then [digitChar n] else strOfNatAux fuel (n / 10) ++ [digitChar (n % 10)]

/-- Python `str(n)` for a natural number. -/
def strOfNat (n : Nat) : List Char := strOfNatAux (n + 1) n

/-- Python `f"{i:02d}"`: `str(i)` zero-padded on the left to width 2 (the
sign counts toward the width, so negative values get no padding here). -/
def format02d (i : Int) : List Char :=
  if i < 0 then '-' :: strOfNat i.natAbs
  else if i < 10 then '0' :: strOfNat i.toNat
  else strOfNat i.toNat

/-- Bytes of an ASCII string (`str.encode("utf-8")` on the ASCII strings
this codec produces). -/
def strBytes (l : List Char) : List Nat := l.map Char.toNat

/-- Source `_extract_core_segment`, step `core_entity_id.split("-", 1)[-1]`:
everything after the first `'-'`, or the whole string if there is none. -/
def afterFirstDash (l : List Char) : List Char :=
  match l.dropWhile (fun c => c ≠ '-') with
  | [] => l
  | _ :: rest => rest

/-- Source `_extract_core_segment`: strip through the first dash, uppercase,
filter to the alphabet, then `ljust`-pad with `'0'` or truncate to width 4. -/
def extract_core_segment (core_entity_id : List Char) : List Char :=
  let segment := (afterFirstDash core_entity_id).map Char.toUpper
  let filtered := segment.filter (fun ch => ALPHABET.contains ch)
  if filtered.length < CORE_SEGMENT_LENGTH then
    filtered ++ List.replicate (CORE_SEGMENT_LENGTH - filtered.length) '0'
  else
    filtered.take CORE_SEGMENT_LENGTH

/-- Source `_namespace_for_user`: base-32 of `HMAC(secret, str(user_id))`,
padding stripped (the `.upper()` of the source is the identity on the
already-uppercase base-32 output), truncated to 2 characters. -/
def namespace_for_user (user_id : Nat) (secret : List Nat) : List Char :=
  (b32encodeStripped (hmacSha256 secret (strBytes (strOfNat user_id)))).take NAMESPACE_LENGTH

/-- Source `_signature`: base-32 of `HMAC(secret, ns + core + f"{pi:02d}")`,
padding stripped, truncated to 6 characters. -/
def signatureOf (ns core_segment : List Char) (payment_index : Int) (secret : List Nat) :
    List Char :=
  (b32encodeStripped
      (hmacSha256 secret (strBytes (ns ++ core_segment ++ format02d payment_index)))).take
    SIGNATURE_LENGTH

/-- Source `generate_upi` (the loaded secret is passed explicitly in place
of the `UPI_SECRET_KEY` environment read of `_load_secret`). -/
def generate_upi (core_entity_id : List Char) (payment_index : Int) (user_id : Nat)
    (secret : List Nat) : List Char :=
  let ns := namespace_for_user user_id secret
  let core_segment := extract_core_segment core_entity_id
  let signature := signatureOf ns core_segment payment_index secret
  ns ++ format02d payment_index ++ core_segment ++ signature

/-- Source `validate_upi_format`. -/
def validate_upi_format (upi : List Char) : Bool :=
  upi.length == UPI_LENGTH && upi.all (fun ch => ALPHABET.contains ch)

/-- Result of `parse_upi` (source `ParsedUPI`; the source field `namespace`
is a Lean keyword and is called `ns` here). -/
structure ParsedUPI where
  ns : List Char
  core_entity_id : List Char
  payment_index : Nat
  signature : List Char
deriving DecidableEq

/-- Python `int(s)` restricted to the alphabet-validated payment-index
window: it succeeds exactly when every character is a decimal digit
(sign marks, spaces and underscores are outside `ALPHABET`). -/
def parsePaymentIndex (cs : List Char) : Option Nat :=
  if cs.all Char.isDigit then
    some (cs.foldl (fun acc c => 10 * acc + (c.toNat - 48)) 0)
  else none

/-- Source `parse_upi`; `ValueError("Invalid UPI format")` becomes
`Except.error "Invalid UPI format"` (raised both for a failed
`validate_upi_format` and for a non-digit payment-index window). -/
def parse_upi (upi : List Char) : Except String ParsedUPI :=
  if validate_upi_format upi then
    match parsePaymentIndex ((upi.drop NAMESPACE_LENGTH).take PAYMENT_INDEX_LENGTH) with
    | some payment_index =>
      Except.ok
        { ns := upi.take NAMESPACE_LENGTH
          core_entity_id :=
            "CORE-".toList ++
              (upi.drop (NAMESPACE_LENGTH + PAYMENT_INDEX_LENGTH)).take CORE_SEGMENT_LENGTH
          payment_index := payment_index
          signature := upi.drop (NAMESPACE_LENGTH + PAYMENT_INDEX_LENGTH + CORE_SEGMENT_LENGTH) }
    | none => Except.error "Invalid UPI format"
  else Except.error "Invalid UPI format"

/-- Source `verify_upi` (`hmac.compare_digest` is equality). -/
def verify_upi (upi : List Char) (user_id : Nat) (secret : List Nat) : Bool :=
  match parse_upi upi with
  | Except.error _ => false
  | Except.ok parsed =>
    let expected_ns := namespace_for_user user_id secret
    if parsed.ns != expected_ns then false
    else
      let core_segment := extract_core_segment parsed.core_entity_id
      let expected_sig := signatureOf parsed.ns core_segment parsed.payment_index secret
      expected_sig == parsed.signature

/-! ### `app/db/queries.py` — records, decryption, query helpers

Sensitive columns are stored only inside the `enc` map as
`{"n": nonce_b64, "c": ciphertext_b64}` pairs (see
`create_payment_account`); the plaintext columns of a row are the
`fields` association list (e.g. `bank_name`). -/

/-- Model of `crypto.decrypt_value`: the AES-GCM library call, `none`
standing for a raised decryption exception (corrupt data / wrong key). -/
abbrev DecOracle := String → String → Option String

structure EncBlob where
  n : String
  c : String
deriving DecidableEq

structure PaymentAccount where
  id : Nat
  orgId : Nat
  paymentIndex : Nat
  rail : String
  status : String
  fields : List (String × String)
  enc : List (String × EncBlob)
deriving DecidableEq

/-- Decrypted view of a row: `enc` has been folded into the plain fields. -/
structure DecryptedAccount where
  id : Nat
  orgId : Nat
  paymentIndex : Nat
  rail : String
  status : String
  fields : List (String × String)
deriving DecidableEq

/-- Python dict assignment `d[k] = v` on an association list: overwrite in
place if the key exists, else append. -/
def setAssoc : List (String × String) → String → String → List (String × String)
  | [], k, v => [(k, v)]
  | (k', v') :: rest, k, v =>
    if k' = k then (k, v) :: rest else (k', v') :: setAssoc rest k v

/-- Source `_decrypt_payment_account`: each entry of `enc` is decrypted;
on failure (`except Exception: continue`) the field is skipped; `enc` is
popped from the result. -/
def decrypt_payment_account (dec : DecOracle) (row : PaymentAccount) : DecryptedAccount :=
  { id := row.id, orgId := row.orgId, paymentIndex := row.paymentIndex,
    rail := row.rail, status := row.status,
    fields :=
      row.enc.foldl
        (fun fs entry =>
          match dec entry.2.n entry.2.c with
          | some value => setAssoc fs entry.1 value
          | none => fs)
        row.fields }

structure ChildUpi where
  orgId : Nat
  paymentAccountId : Nat
  upi : List Char
  status : String
deriving DecidableEq

structure Org where
  id : Nat
  upi : List Char
  userId : Nat
  status : String
deriving DecidableEq

structure User where
  id : Nat
deriving DecidableEq

/-- The database tables the resolution path reads. `verified` is the set
of user ids having an onboarding session in state `VERIFIED`
(`queries.is_user_verified`). -/
structure Db where
  users : List User
  verified : List Nat
  childUpis : List ChildUpi
  orgs : List Org
  accounts : List PaymentAccount

def is_user_verified (db : Db) (userId : Nat) : Bool := db.verified.contains userId

def get_user_by_id (db : Db) (userId : Nat) : Option User :=
  db.users.find? (fun u => u.id == userId)

def get_child_upi_by_value (db : Db) (upi : List Char) : Option ChildUpi :=
  db.childUpis.find? (fun cu => cu.upi == upi)

def get_organization_by_id (db : Db) (orgId : Nat) : Option Org :=
  db.orgs.find? (fun o => o.id == orgId)

def get_organization_by_upi (db : Db) (upi : List Char) : Option Org :=
  db.orgs.find? (fun o => o.upi == upi)

/-- Source `get_payment_account_by_id`: no status filter; decrypts. -/
def get_payment_account_by_id (dec : DecOracle) (db : Db) (accountId : Nat) :
    Option DecryptedAccount :=
  (db.accounts.find? (fun a => a.id == accountId)).map (decrypt_payment_account dec)

/-- Source `get_payment_account_by_org_and_index`: matches organization,
payment index and rail, excludes `status = 'disabled'`; decrypts. -/
def get_payment_account_by_org_and_index (dec : DecOracle) (db : Db) (orgId : Nat)
    (paymentIndex : Nat) (rail : String) : Option DecryptedAccount :=
  (db.accounts.find?
      (fun a =>
        a.orgId == orgId && a.paymentIndex == paymentIndex && a.rail == rail &&
          a.status != "disabled")).map
    (decrypt_payment_account dec)

/-! ### `app/db/queries.py` — payment-index allocation -/

/-- Source `_next_payment_index_for_org`:
`coalesce(max(payment_index), 0) + 1` over every account of the
organization, with no status filter (disabled rows count). -/
def next_payment_index_for_org (accounts : List PaymentAccount) (orgId : Nat) : Nat :=
  ((accounts.filter (fun a => a.orgId == orgId)).foldl
      (fun acc a => max acc a.paymentIndex) 0) + 1

/-- Source `create_payment_account` as invoked by every caller in the
repository (none passes an explicit `payment_index`): the allocator
supplies the index and the row is appended. -/
def create_payment_account (accounts : List PaymentAccount) (tmpl : PaymentAccount) :
    List PaymentAccount :=
  accounts ++ [{ tmpl with paymentIndex := next_payment_index_for_org accounts tmpl.orgId }]

/-- Operations of the account table relevant to index allocation: rows are
created (through the allocator) or status-disabled, never deleted. -/
inductive AccountOp where
  | create (tmpl : PaymentAccount)
  | disable (accountId : Nat)

def applyAccountOp (accounts : List PaymentAccount) : AccountOp → List PaymentAccount
  | AccountOp.create tmpl => create_payment_account accounts tmpl
  | AccountOp.disable accountId =>
    accounts.map (fun a => if a.id == accountId then { a with status := "disabled" } else a)

def applyAccountOps (accounts : List PaymentAccount) (ops : List AccountOp) :
    List PaymentAccount :=
  ops.foldl applyAccountOp accounts

/-! ### `app/routes/resolve.py` — the `/api/resolve` handler

Rate limiting (`_enforce_rate_limit`) is infrastructure outside this
engine (spec section 1) and is not modeled.  The successful response also
carries non-sensitive `business`/`profile` metadata blocks assembled from
the organization and owner rows; the claims under verification concern
the HTTP status and the `coordinates` block, which are modeled. -/

/-- Requested rail, the pydantic `Literal["ACH", "WIRE_DOM", "SWIFT"]`. -/
inductive Rail where
  | ACH
  | WIRE_DOM
  | SWIFT
deriving DecidableEq

def railStr : Rail → String
  | Rail.ACH => "ACH"
  | Rail.WIRE_DOM => "WIRE_DOM"
  | Rail.SWIFT => "SWIFT"

/-- Outcome of the route handler: an `HTTPException` with status code and
detail, or the success payload. -/
inductive RouteResult where
  | http (code : Nat) (detail : String)
  | ok (upi : List Char) (rail : Rail) (coordinates : List (String × Option String))
deriving DecidableEq

/-- The rail-specific `coordinates` dict of `resolve_upi` (`account.get(k)`
is `none` when the field is absent; `or ""` on `bank_address`). -/
def assembleCoordinates (rail : Rail) (account : DecryptedAccount) :
    List (String × Option String) :=
  match rail with
  | Rail.ACH =>
    [("routing_number", account.fields.lookup "ach_routing"),
     ("account_number", account.fields.lookup "ach_account"),
     ("bank_name", account.fields.lookup "bank_name")]
  | Rail.WIRE_DOM =>
    [("routing_number", account.fields.lookup "wire_routing"),
     ("account_number", account.fields.lookup "wire_account"),
     ("bank_name", account.fields.lookup "bank_name"),
     ("bank_address", some ((account.fields.lookup "bank_address").getD ""))]
  | Rail.SWIFT =>
    [("swift_bic", account.fields.lookup "swift_bic"),
     ("iban", account.fields.lookup "iban"),
     ("bank_name", account.fields.lookup "bank_name"),
     ("bank_address", some ((account.fields.lookup "bank_address").getD "")),
     ("bank_country", account.fields.lookup "bank_country"),
     ("bank_city", account.fields.lookup "bank_city")]

/-- Source `resolve_upi` (`POST /api/resolve`), step for step. -/
def resolve_upi (dec : DecOracle) (secret : List Nat) (db : Db) (user : User)
    (upi : List Char) (rail : Rail) : RouteResult :=
  let upi_value := upi.map Char.toUpper
  if !is_user_verified db user.id then
    RouteResult.http 403 "Verification required to resolve UPIs."
  else if !validate_upi_format upi_value then
    RouteResult.http 400 "Invalid UPI format"
  else
    match get_child_upi_by_value db upi_value with
    | some child_upi =>
      if child_upi.status != "active" then RouteResult.http 410 "UPI is disabled"
      else
        match get_organization_by_id db child_upi.orgId with
        | none => RouteResult.http 404 "UPI not found"
        | some org =>
          let owner := (get_user_by_id db org.userId).getD user
          if !is_user_verified db owner.id then
            RouteResult.http 403 "Recipient account is not verified."
          else if !verify_upi upi_value owner.id secret then
            RouteResult.http 404 "UPI not found"
          else
            match get_payment_account_by_id dec db child_upi.paymentAccountId with
            | none => RouteResult.http 404 "Payment details not found for this rail"
            | some account =>
              if account.rail != railStr rail then
                RouteResult.http 404 "Payment details not found for this rail"
              else RouteResult.ok upi_value rail (assembleCoordinates rail account)
    | none =>
      match parse_upi upi_value with
      | Except.error msg => RouteResult.http 400 msg
      | Except.ok parsed =>
        match get_organization_by_upi db upi_value with
        | none => RouteResult.http 404 "UPI not found"
        | some org =>
          if org.status == "deactivated" then RouteResult.http 404 "UPI not found"
          else
            let owner := (get_user_by_id db org.userId).getD user
            if !is_user_verified db owner.id then
              RouteResult.http 403 "Recipient account is not verified."
            else if !verify_upi upi_value owner.id secret then
              RouteResult.http 404 "UPI not found"
            else
              match
                get_payment_account_by_org_and_index dec db org.id parsed.payment_index
                  (railStr rail)
              with
              | none => RouteResult.http 404 "Payment details not found for this rail"
              | some account => RouteResult.ok upi_value rail (assembleCoordinates rail account)

/-! ### Auxiliary definitions used by the development

`decStep` names the per-field fold step of `_decrypt_payment_account`;
`theAccount`, `orgScenarioDb` and `childScenarioDb` build the concrete
test scenario of spec section 8; `railFieldNames` lists the claim's
rail-relevant coordinate fields; `decIdentity`/`decFailBad` are concrete
decryption oracles for witnesses and counterexamples;
`coreSegmentClaimLeftPad`/`coreSegmentClaimRightPad` restate the claim's
wording of the core-segment derivation for comparison. -/

/-- One step of the decryption fold of `_decrypt_payment_account`. -/
def decStep (dec : DecOracle) (fs : List (String × String)) (entry : String × EncBlob) :
    List (String × String) :=
  match dec entry.2.n entry.2.c with
  | some value => setAssoc fs entry.1 value
  | none => fs

def theAccount (pi : Nat) (rail : Rail) (status : String)
    (fields : List (String × String)) (enc : List (String × EncBlob)) : PaymentAccount :=
  { id := 7, orgId := 1, paymentIndex := pi, rail := railStr rail, status := status,
    fields := fields, enc := enc }

def orgScenarioDb (secret : List Nat) (uid cid : Nat) (tag : List Char) (pi : Nat)
    (rail : Rail) (fields : List (String × String)) (enc : List (String × EncBlob)) : Db :=
  { users := [{ id := uid }]
    verified := [cid, uid]
    childUpis := []
    orgs := [{ id := 1, upi := generate_upi tag (pi : Int) uid secret, userId := uid,
               status := "active" }]
    accounts := [theAccount pi rail "active" fields enc] }

def childScenarioDb (secret : List Nat) (uid cid : Nat) (tag : List Char) (pi : Nat)
    (rail : Rail) (childStatus acctStatus : String) (fields : List (String × String))
    (enc : List (String × EncBlob)) : Db :=
  { users := [{ id := uid }]
    verified := [cid, uid]
    childUpis := [{ orgId := 1, paymentAccountId := 7,
                    upi := generate_upi tag (pi : Int) uid secret, status := childStatus }]
    orgs := [{ id := 1, upi := [], userId := uid, status := "active" }]
    accounts := [theAccount pi rail acctStatus fields enc] }

/-- Core-segment derivation exactly as the claim words it: strip through
the first dash, uppercase, filter to the alphabet, then pad with `'0'`
on the LEFT if short, or truncate, to width 4.  Second definition kept
for comparison against the source's `_extract_core_segment`. -/
def coreSegmentClaimLeftPad (core_entity_id : List Char) : List Char :=
  let stripped :=
    if '-' ∈ core_entity_id then (core_entity_id.dropWhile (fun c => c ≠ '-')).tail
    else core_entity_id
  let filtered := (stripped.map Char.toUpper).filter (fun ch => ALPHABET.contains ch)
  if filtered.length < CORE_SEGMENT_LENGTH then
    List.replicate (CORE_SEGMENT_LENGTH - filtered.length) '0' ++ filtered
  else filtered.take CORE_SEGMENT_LENGTH

/-- Core-segment derivation as the claim reads after the one forced
change: the `'0'` padding of a short segment goes on the RIGHT
(the source uses `str.ljust`), not on the left. -/
def coreSegmentClaimRightPad (core_entity_id : List Char) : List Char :=
  let stripped :=
    if '-' ∈ core_entity_id then (core_entity_id.dropWhile (fun c => c ≠ '-')).tail
    else core_entity_id
  let filtered := (stripped.map Char.toUpper).filter (fun ch => ALPHABET.contains ch)
  if filtered.length < CORE_SEGMENT_LENGTH then
    filtered ++ List.replicate (CORE_SEGMENT_LENGTH - filtered.length) '0'
  else filtered.take CORE_SEGMENT_LENGTH

/-- An oracle standing for a decryption that always succeeds (used to
instantiate counterexamples; it returns the ciphertext field). -/
def decIdentity : DecOracle := fun _nonce c => some c

/-- Field names of the rail-specific coordinate record as the spec lists
them. -/
def railFieldNames (rail : Rail) : List String :=
  match rail with
  | Rail.ACH => ["routing_number", "account_number", "bank_name"]
  | Rail.WIRE_DOM => ["routing_number", "account_number", "bank_name", "bank_address"]
  | Rail.SWIFT =>
    ["swift_bic", "iban", "bank_name", "bank_address", "bank_country", "bank_city"]

/-- An oracle failing exactly on nonce `"bad"` (witness instrument). -/
def decFailBad : DecOracle := fun n c => if n = "bad" then none else some c

/-! ## Basic facts about the cryptographic encoders -/

theorem digestBytes_length (h : Hash8) : (digestBytes h).length = 32 := by
  simp [digestBytes, wordBytes]

theorem sha256_length (msg : List Nat) : (sha256 msg).length = 32 :=
  digestBytes_length _

theorem hmacSha256_length (key msg : List Nat) : (hmacSha256 key msg).length = 32 :=
  sha256_length _

theorem b32encodeStripped_length (bs : List Nat) :
    (b32encodeStripped bs).length = (8 * bs.length + 4) / 5 := by
  simp [b32encodeStripped]

theorem b32_getD_mem_alphabet (v : Nat) : b32Alphabet.getD v 'A' ∈ ALPHABET := by
  have hsub : b32Alphabet.all (fun c => ALPHABET.contains c) = true := by decide
  rw [List.all_eq_true] at hsub
  by_cases hv : v < b32Alphabet.length
  · have hmem : b32Alphabet.getD v 'A' ∈ b32Alphabet := by
      rw [List.getD_eq_getElem?_getD, List.getElem?_eq_getElem hv]
      exact List.getElem_mem hv
    have := hsub _ hmem
    exact List.mem_of_elem_eq_true this
  · rw [List.getD_eq_getElem?_getD, List.getElem?_eq_none (Nat.le_of_not_lt hv)]
    decide

theorem mem_b32encodeStripped {c : Char} {bs : List Nat} (hc : c ∈ b32encodeStripped bs) :
    c ∈ ALPHABET := by
  simp only [b32encodeStripped, List.mem_map, List.mem_range] at hc
  obtain ⟨i, _, rfl⟩ := hc
  exact b32_getD_mem_alphabet _

theorem namespace_for_user_length (user_id : Nat) (secret : List Nat) :
    (namespace_for_user user_id secret).length = 2 := by
  simp [namespace_for_user, List.length_take, b32encodeStripped_length, hmacSha256_length,
    NAMESPACE_LENGTH]

theorem mem_namespace_for_user {c : Char} {user_id : Nat} {secret : List Nat}
    (hc : c ∈ namespace_for_user user_id secret) : c ∈ ALPHABET :=
  mem_b32encodeStripped (List.take_subset _ _ hc)

theorem signatureOf_length (ns core : List Char) (payment_index : Int) (secret : List Nat) :
    (signatureOf ns core payment_index secret).length = 6 := by
  simp [signatureOf, List.length_take, b32encodeStripped_length, hmacSha256_length,
    SIGNATURE_LENGTH]

theorem mem_signatureOf {c : Char} {ns core : List Char} {payment_index : Int}
    {secret : List Nat} (hc : c ∈ signatureOf ns core payment_index secret) : c ∈ ALPHABET :=
  mem_b32encodeStripped (List.take_subset _ _ hc)

/-! ## Basic facts about the codec -/

theorem mem_alphabet_toUpper {c : Char} (hc : c ∈ ALPHABET) : c.toUpper = c := by
  have hall : ALPHABET.all (fun c => c.toUpper == c) = true := by decide
  rw [List.all_eq_true] at hall
  exact eq_of_beq (hall c hc)

theorem extract_core_segment_length (core_entity_id : List Char) :
    (extract_core_segment core_entity_id).length = 4 := by
  simp only [extract_core_segment]
  split
  · next h =>
    simp only [List.length_append, List.length_replicate, CORE_SEGMENT_LENGTH] at *
    omega
  · next h =>
    simp only [List.length_take, CORE_SEGMENT_LENGTH] at *
    omega

theorem mem_extract_core_segment {c : Char} {core_entity_id : List Char}
    (hc : c ∈ extract_core_segment core_entity_id) : c ∈ ALPHABET := by
  simp only [extract_core_segment] at hc
  split at hc
  · rcases List.mem_append.mp hc with h | h
    · exact List.mem_of_elem_eq_true (List.mem_filter.mp h).2
    · rw [List.eq_of_mem_replicate h]
      decide
  · exact List.mem_of_elem_eq_true (List.mem_filter.mp (List.take_subset _ _ hc)).2

/-- Bounded evaluation: for every payment index 0..99 the `%02d` rendering
is two alphabet digits and `int()` reads the index back. -/
theorem format02d_spec :
    ∀ pi : Nat, pi < 100 →
      (format02d (pi : Int)).length = 2 ∧
      (format02d (pi : Int)).all (fun c => ALPHABET.contains c) = true ∧
      parsePaymentIndex (format02d (pi : Int)) = some pi := by
  decide

/-! ## Facts about the decimal printer -/

theorem strOfNatAux_congr :
    ∀ (n f f' : Nat), n < f → n < f' → strOfNatAux f n = strOfNatAux f' n := by
  intro n
  induction n using Nat.strong_induction_on with
  | _ n ih =>
    intro f f' hf hf'
    match f, f' with
    | f + 1, f' + 1 =>
      simp only [strOfNatAux]
      by_cases h10 : n < 10
      · simp [h10]
      · have hdiv : n / 10 < n := Nat.div_lt_self (by omega) (by omega)
        rw [if_neg h10, if_neg h10, ih (n / 10) hdiv f f' (by omega) (by omega)]

theorem strOfNatAux_length_pos : ∀ (f n : Nat), n < f → 1 ≤ (strOfNatAux f n).length := by
  intro f n h
  match f with
  | f + 1 =>
    simp only [strOfNatAux]
    split <;> simp

theorem strOfNat_length_ge_three {n : Nat} (h : 100 ≤ n) : 3 ≤ (strOfNat n).length := by
  have h1 : strOfNat n = strOfNatAux n (n / 10) ++ [digitChar (n % 10)] := by
    simp only [strOfNat, strOfNatAux]
    rw [if_neg (by omega)]
  have hd1 : n / 10 < n := Nat.div_lt_self (by omega) (by omega)
  have h2 : strOfNatAux n (n / 10) = strOfNat (n / 10) :=
    strOfNatAux_congr (n / 10) n (n / 10 + 1) hd1 (Nat.lt_succ_self _)
  have hge10 : 10 ≤ n / 10 := by omega
  have h3 : strOfNat (n / 10) = strOfNatAux (n / 10) (n / 10 / 10) ++ [digitChar (n / 10 % 10)] := by
    simp only [strOfNat, strOfNatAux]
    rw [if_neg (by omega)]
  have hd2 : n / 10 / 10 < n / 10 := Nat.div_lt_self (by omega) (by omega)
  have hpos : 1 ≤ (strOfNatAux (n / 10) (n / 10 / 10)).length :=
    strOfNatAux_length_pos _ _ hd2
  rw [h1, h2, h3]
  simp only [List.length_append, List.length_cons, List.length_nil]
  omega

theorem format02d_neg {i : Int} (h : i < 0) : format02d i = '-' :: strOfNat i.natAbs := by
  simp [format02d, h]

theorem format02d_length_ge_three {i : Int} (h : 100 ≤ i) : 3 ≤ (format02d i).length := by
  have h0 : ¬ i < 0 := by omega
  have h1 : ¬ i < 10 := by omega
  have h2 : 100 ≤ i.toNat := by omega
  simp only [format02d, if_neg h0, if_neg h1]
  exact strOfNat_length_ge_three h2

/-! ## Window arithmetic of the fixed-width layout -/

theorem append4_windows (a b c d : List Char) (ha : a.length = 2) (hb : b.length = 2)
    (hc : c.length = 4) :
    (a ++ b ++ c ++ d).take 2 = a ∧
    ((a ++ b ++ c ++ d).drop 2).take 2 = b ∧
    ((a ++ b ++ c ++ d).drop 4).take 4 = c ∧
    (a ++ b ++ c ++ d).drop 8 = d := by
  refine ⟨?_, ?_, ?_, ?_⟩
  · have h : a ++ b ++ c ++ d = a ++ (b ++ c ++ d) := by simp [List.append_assoc]
    rw [h, List.take_left' ha]
  · have h : a ++ b ++ c ++ d = a ++ (b ++ (c ++ d)) := by simp [List.append_assoc]
    rw [h, List.drop_left' ha, List.take_left' hb]
  · have h : a ++ b ++ c ++ d = (a ++ b) ++ (c ++ d) := by simp [List.append_assoc]
    rw [h, List.drop_left' (by simp [ha, hb] : (a ++ b).length = 4), List.take_left' hc]
  · have h : a ++ b ++ c ++ d = (a ++ b ++ c) ++ d := by simp [List.append_assoc]
    rw [h, List.drop_left' (by simp [ha, hb, hc] : (a ++ b ++ c).length = 8)]

/-- Re-deriving the core segment from the parsed `"CORE-" + window` string
gives back the window whenever it is four alphabet characters. -/
theorem extract_core_segment_of_core {l : List Char} (hlen : l.length = 4)
    (hmem : ∀ c ∈ l, c ∈ ALPHABET) :
    extract_core_segment ("CORE-".toList ++ l) = l := by
  have h1 : afterFirstDash ("CORE-".toList ++ l) = l := rfl
  have h2 : l.map Char.toUpper = l :=
    List.map_congr_left (fun c hcmem => mem_alphabet_toUpper (hmem c hcmem)) |>.trans l.map_id
  have h3 : l.filter (fun ch => ALPHABET.contains ch) = l :=
    List.filter_eq_self.mpr (fun c hcmem => List.elem_iff.mpr (hmem c hcmem))
  simp only [extract_core_segment, h1, h2, h3, hlen, CORE_SEGMENT_LENGTH]
  rw [if_neg (by omega)]
  rw [← hlen, List.take_length]

/-! ## Issuance and decoding -/

theorem validate_generate_upi {core_entity_id : List Char} {pi : Nat} {user_id : Nat}
    {secret : List Nat} (hpi : pi < 100) :
    validate_upi_format (generate_upi core_entity_id (pi : Int) user_id secret) = true := by
  obtain ⟨hlen, hall, -⟩ := format02d_spec pi hpi
  rw [validate_upi_format, Bool.and_eq_true]
  constructor
  · simp only [generate_upi, List.length_append, namespace_for_user_length, hlen,
      extract_core_segment_length, signatureOf_length, UPI_LENGTH, NAMESPACE_LENGTH,
      PAYMENT_INDEX_LENGTH, CORE_SEGMENT_LENGTH, SIGNATURE_LENGTH]
    decide
  · rw [List.all_eq_true]
    intro c hc
    simp only [generate_upi, List.mem_append] at hc
    rcases hc with ((hc | hc) | hc) | hc
    · exact List.elem_iff.mpr (mem_namespace_for_user hc)
    · exact List.all_eq_true.mp hall c hc
    · exact List.elem_iff.mpr (mem_extract_core_segment hc)
    · exact List.elem_iff.mpr (mem_signatureOf hc)

theorem parse_generate_upi {core_entity_id : List Char} {pi : Nat} {user_id : Nat}
    {secret : List Nat} (hpi : pi < 100) :
    parse_upi (generate_upi core_entity_id (pi : Int) user_id secret) =
      Except.ok
        { ns := namespace_for_user user_id secret
          core_entity_id := "CORE-".toList ++ extract_core_segment core_entity_id
          payment_index := pi
          signature :=
            signatureOf (namespace_for_user user_id secret)
              (extract_core_segment core_entity_id) (pi : Int) secret } := by
  obtain ⟨hflen, -, hparse⟩ := format02d_spec pi hpi
  obtain ⟨hw1, hw2, hw3, hw4⟩ :=
    append4_windows (namespace_for_user user_id secret) (format02d (pi : Int))
      (extract_core_segment core_entity_id)
      (signatureOf (namespace_for_user user_id secret) (extract_core_segment core_entity_id)
        (pi : Int) secret)
      (namespace_for_user_length _ _) hflen (extract_core_segment_length _)
  have hgen :
      generate_upi core_entity_id (pi : Int) user_id secret =
        namespace_for_user user_id secret ++ format02d (pi : Int) ++
          extract_core_segment core_entity_id ++
          signatureOf (namespace_for_user user_id secret) (extract_core_segment core_entity_id)
            (pi : Int) secret := rfl
  rw [← hgen] at hw1 hw2 hw3 hw4
  simp only [parse_upi, NAMESPACE_LENGTH, PAYMENT_INDEX_LENGTH, CORE_SEGMENT_LENGTH,
    Nat.reduceAdd]
  rw [if_pos (validate_generate_upi hpi), hw2, hparse, hw1, hw3, hw4]

theorem verify_generate_upi {core_entity_id : List Char} {pi : Nat} {user_id : Nat}
    {secret : List Nat} (hpi : pi < 100) :
    verify_upi (generate_upi core_entity_id (pi : Int) user_id secret) user_id secret = true := by
  rw [verify_upi, parse_generate_upi hpi]
  simp only [bne_self_eq_false, Bool.false_eq_true, if_false]
  rw [extract_core_segment_of_core (extract_core_segment_length _)
    (fun c hcmem => mem_extract_core_segment hcmem)]
  simp

/-! ## Characterization of signature verification -/

theorem validate_length {u : List Char} (hval : validate_upi_format u = true) :
    u.length = 14 := by
  simp only [validate_upi_format, UPI_LENGTH, NAMESPACE_LENGTH, PAYMENT_INDEX_LENGTH,
    CORE_SEGMENT_LENGTH, SIGNATURE_LENGTH, Bool.and_eq_true, beq_iff_eq] at hval
  exact hval.1

theorem validate_mem {u : List Char} (hval : validate_upi_format u = true) :
    ∀ c ∈ u, c ∈ ALPHABET := by
  simp only [validate_upi_format, Bool.and_eq_true] at hval
  exact fun c hc => List.mem_of_elem_eq_true (List.all_eq_true.mp hval.2 c hc)

theorem parse_upi_invalid {u : List Char} (hval : validate_upi_format u = false) :
    parse_upi u = Except.error "Invalid UPI format" := by
  simp only [parse_upi]
  rw [if_neg (by simp [hval])]

theorem parse_upi_nondigit {u : List Char} (hval : validate_upi_format u = true)
    (hpw : parsePaymentIndex ((u.drop 2).take 2) = none) :
    parse_upi u = Except.error "Invalid UPI format" := by
  simp only [parse_upi, NAMESPACE_LENGTH, PAYMENT_INDEX_LENGTH, Nat.reduceAdd]
  rw [if_pos hval, hpw]

theorem parse_upi_digits {u : List Char} {pi : Nat} (hval : validate_upi_format u = true)
    (hpw : parsePaymentIndex ((u.drop 2).take 2) = some pi) :
    parse_upi u =
      Except.ok
        { ns := u.take 2, core_entity_id := "CORE-".toList ++ (u.drop 4).take 4,
          payment_index := pi, signature := u.drop 8 } := by
  simp only [parse_upi, NAMESPACE_LENGTH, PAYMENT_INDEX_LENGTH, CORE_SEGMENT_LENGTH,
    Nat.reduceAdd]
  rw [if_pos hval, hpw]

theorem verify_upi_of_parse {u : List Char} {p : ParsedUPI} {user_id : Nat}
    {secret : List Nat} (hp : parse_upi u = Except.ok p) :
    verify_upi u user_id secret =
      (if p.ns != namespace_for_user user_id secret then false
       else
         signatureOf p.ns (extract_core_segment p.core_entity_id) (p.payment_index : Int)
             secret ==
           p.signature) := by
  rw [verify_upi, hp]

theorem ite_bne_eq_true_iff (a b c d : List Char) :
    ((if a != b then false else c == d) = true) ↔ (a = b ∧ c = d) := by
  by_cases hab : a = b
  · simp [hab]
  · simp [hab, bne_iff_ne]

/-- C1: signature verification succeeds if and only if the string is
format-valid (here including the decodability of its payment-index
window, without which no signature payload exists), its 2-character
namespace window equals the HMAC-derived namespace recomputed for the
owner, and its 6-character signature window equals the HMAC-SHA256,
base-32, truncated signature recomputed over (namespace, core-segment
window, payment index) under the current secret. -/
theorem c1_verify_upi_iff_recomputed_checks (u : List Char) (user_id : Nat)
    (secret : List Nat) :
    verify_upi u user_id secret = true ↔
      validate_upi_format u = true ∧
      ∃ pi : Nat,
        parsePaymentIndex ((u.drop 2).take 2) = some pi ∧
        u.take 2 = namespace_for_user user_id secret ∧
        u.drop 8 = signatureOf (u.take 2) ((u.drop 4).take 4) (pi : Int) secret := by
  by_cases hval : validate_upi_format u = true
  case neg =>
    rw [verify_upi, parse_upi_invalid (Bool.not_eq_true _ ▸ hval)]
    simp [hval]
  case pos =>
    cases hpw : parsePaymentIndex ((u.drop 2).take 2) with
    | none =>
      rw [verify_upi, parse_upi_nondigit hval hpw]
      simp [hval, hpw]
    | some pi0 =>
      have hcore :
          extract_core_segment ("CORE-".toList ++ (u.drop 4).take 4) = (u.drop 4).take 4 :=
        extract_core_segment_of_core
          (by simp [List.length_take, List.length_drop, validate_length hval])
          (fun c hc =>
            validate_mem hval c (List.drop_subset _ _ (List.take_subset _ _ hc)))
      rw [verify_upi_of_parse (parse_upi_digits hval hpw)]
      dsimp only
      rw [hcore, ite_bne_eq_true_iff]
      constructor
      · rintro ⟨hns, hsig⟩
        exact ⟨hval, pi0, rfl, hns, hsig.symm⟩
      · rintro ⟨-, pi1, hpw1, hns, hsig⟩
        obtain rfl : pi0 = pi1 := by injection hpw1
        exact ⟨hns, hsig.symm⟩

/-! ## Facts about record decryption -/

theorem lookup_setAssoc (l : List (String × String)) (k : String) (v : String) (k' : String) :
    (setAssoc l k v).lookup k' = if k' = k then some v else l.lookup k' := by
  induction l with
  | nil =>
    by_cases h : k' = k
    · simp [setAssoc, List.lookup_cons, h]
    · simp [setAssoc, List.lookup_cons, h, beq_eq_false_iff_ne.mpr h]
  | cons a t ih =>
    obtain ⟨ka, va⟩ := a
    by_cases hka : ka = k
    · subst hka
      by_cases h : k' = ka
      · simp [setAssoc, List.lookup_cons, h]
      · simp [setAssoc, List.lookup_cons, h, beq_eq_false_iff_ne.mpr h]
    · have hne : k' = ka → ¬ k' = k := fun hh₁ hh₂ => hka (hh₁ ▸ hh₂)
      by_cases h : k' = ka
      · simp only [setAssoc, if_neg hka, List.lookup_cons, beq_iff_eq.mpr h, if_neg (hne h)]
      · simp only [setAssoc, if_neg hka, List.lookup_cons, beq_eq_false_iff_ne.mpr h]
        exact ih

theorem decrypt_payment_account_fields (dec : DecOracle) (row : PaymentAccount) :
    (decrypt_payment_account dec row).fields = row.enc.foldl (decStep dec) row.fields := rfl

theorem foldl_decStep_untouched (dec : DecOracle) :
    ∀ (enc : List (String × EncBlob)) (init : List (String × String)) (f : String),
      f ∉ enc.map Prod.fst → (enc.foldl (decStep dec) init).lookup f = init.lookup f := by
  intro enc
  induction enc with
  | nil => intro init f _; rfl
  | cons e t ih =>
    intro init f hf
    simp only [List.map_cons, List.mem_cons] at hf
    push_neg at hf
    rw [List.foldl_cons, ih _ f hf.2]
    simp only [decStep]
    cases dec e.2.n e.2.c with
    | none => rfl
    | some v => rw [lookup_setAssoc, if_neg hf.1]

theorem foldl_decStep_lookup (dec : DecOracle) :
    ∀ (enc : List (String × EncBlob)) (init : List (String × String)) (f : String)
      (blob : EncBlob),
      (f, blob) ∈ enc → (enc.map Prod.fst).Nodup →
      (enc.foldl (decStep dec) init).lookup f =
        match dec blob.n blob.c with
        | some v => some v
        | none => init.lookup f := by
  intro enc
  induction enc with
  | nil => intro init f blob hmem; exact absurd hmem (List.not_mem_nil _)
  | cons e t ih =>
    intro init f blob hmem hnodup
    simp only [List.map_cons, List.nodup_cons] at hnodup
    rcases List.mem_cons.mp hmem with heq | hmem'
    · have hf1 : f = e.1 := by rw [← heq]
      have hb : blob = e.2 := by rw [← heq]
      subst hf1
      subst hb
      rw [List.foldl_cons, foldl_decStep_untouched dec t _ _ hnodup.1]
      simp only [decStep]
      cases hdec : dec e.2.n e.2.c with
      | none => rfl
      | some v => rw [lookup_setAssoc, if_pos rfl]
    · have hfne : f ≠ e.1 := by
        intro hcontra
        exact hnodup.1 (hcontra ▸ List.mem_map_of_mem Prod.fst hmem')
      rw [List.foldl_cons, ih _ f blob hmem' hnodup.2]
      simp only [decStep]
      cases hdec : dec e.2.n e.2.c with
      | none => rfl
      | some v => rw [lookup_setAssoc, if_neg hfne]

/-! ## Facts about payment-index allocation -/

theorem foldl_max_ge_init (l : List PaymentAccount) (acc : Nat) :
    acc ≤ l.foldl (fun m a => max m a.paymentIndex) acc := by
  induction l generalizing acc with
  | nil => exact Nat.le_refl _
  | cons x t ih => exact Nat.le_trans (Nat.le_max_left _ _) (ih _)

theorem foldl_max_ge_mem (l : List PaymentAccount) (acc : Nat) (x : PaymentAccount)
    (hx : x ∈ l) : x.paymentIndex ≤ l.foldl (fun m a => max m a.paymentIndex) acc := by
  induction l generalizing acc with
  | nil => exact absurd hx (List.not_mem_nil _)
  | cons y t ih =>
    rcases List.mem_cons.mp hx with rfl | hmem
    · exact Nat.le_trans (Nat.le_max_right _ _) (foldl_max_ge_init _ _)
    · exact ih _ hmem

theorem foldl_max_eq_acc_or_mem (l : List PaymentAccount) (acc : Nat) :
    l.foldl (fun m a => max m a.paymentIndex) acc = acc ∨
      ∃ x ∈ l, l.foldl (fun m a => max m a.paymentIndex) acc = x.paymentIndex := by
  induction l generalizing acc with
  | nil => exact Or.inl rfl
  | cons y t ih =>
    rw [List.foldl_cons]
    rcases ih (max acc y.paymentIndex) with h | ⟨x, hx, hfold⟩
    · rcases max_choice acc y.paymentIndex with hm | hm
      · exact Or.inl (h.trans hm)
      · exact Or.inr ⟨y, List.mem_cons_self _ _, h.trans hm⟩
    · exact Or.inr ⟨x, List.mem_cons_of_mem _ hx, hfold⟩

theorem next_payment_index_gt (accounts : List PaymentAccount) (orgId : Nat)
    (r : PaymentAccount) (hr : r ∈ accounts) (horg : r.orgId = orgId) :
    r.paymentIndex < next_payment_index_for_org accounts orgId := by
  have hmem : r ∈ accounts.filter (fun a => a.orgId == orgId) :=
    List.mem_filter.mpr ⟨hr, beq_iff_eq.mpr horg⟩
  have := foldl_max_ge_mem (accounts.filter (fun a => a.orgId == orgId)) 0 r hmem
  simp only [next_payment_index_for_org]
  omega

theorem next_payment_index_max_char (accounts : List PaymentAccount) (orgId : Nat) :
    next_payment_index_for_org accounts orgId = 1 ∨
      ∃ r ∈ accounts, r.orgId = orgId ∧
        next_payment_index_for_org accounts orgId = r.paymentIndex + 1 := by
  rcases foldl_max_eq_acc_or_mem (accounts.filter (fun a => a.orgId == orgId)) 0 with h | h
  · exact Or.inl (by simp only [next_payment_index_for_org, h])
  · obtain ⟨x, hx, hfold⟩ := h
    obtain ⟨hxmem, hxorg⟩ := List.mem_filter.mp hx
    exact Or.inr ⟨x, hxmem, beq_iff_eq.mp hxorg,
      by simp only [next_payment_index_for_org, hfold]⟩

theorem filter_foldl_map_preserving (g : PaymentAccount → PaymentAccount)
    (horg : ∀ a, (g a).orgId = a.orgId) (hpi : ∀ a, (g a).paymentIndex = a.paymentIndex) :
    ∀ (l : List PaymentAccount) (acc orgId : Nat),
      ((l.map g).filter (fun a => a.orgId == orgId)).foldl
          (fun m a => max m a.paymentIndex) acc =
        (l.filter (fun a => a.orgId == orgId)).foldl (fun m a => max m a.paymentIndex) acc := by
  intro l
  induction l with
  | nil => intro acc orgId; rfl
  | cons x t ih =>
    intro acc orgId
    by_cases hx : (x.orgId == orgId) = true
    · simp [List.filter_cons, horg x, hx, hpi x, ih]
    · rw [Bool.not_eq_true] at hx
      simp [List.filter_cons, horg x, hx, ih]

theorem next_payment_index_mono_op (accounts : List PaymentAccount) (op : AccountOp)
    (orgId : Nat) :
    next_payment_index_for_org accounts orgId ≤
      next_payment_index_for_org (applyAccountOp accounts op) orgId := by
  cases op with
  | create tmpl =>
    simp only [applyAccountOp, create_payment_account]
    generalize ({ tmpl with
        paymentIndex := next_payment_index_for_org accounts tmpl.orgId } :
      PaymentAccount) = row
    simp only [next_payment_index_for_org, List.filter_append, List.foldl_append]
    have h := foldl_max_ge_init ([row].filter (fun a => a.orgId == orgId))
      ((accounts.filter (fun a => a.orgId == orgId)).foldl (fun m a => max m a.paymentIndex) 0)
    omega
  | disable accountId =>
    simp only [applyAccountOp, next_payment_index_for_org]
    rw [filter_foldl_map_preserving _ (fun a => by split <;> rfl)
      (fun a => by split <;> rfl)]

theorem next_payment_index_mono_ops (accounts : List PaymentAccount) (ops : List AccountOp)
    (orgId : Nat) :
    next_payment_index_for_org accounts orgId ≤
      next_payment_index_for_org (applyAccountOps accounts ops) orgId := by
  induction ops generalizing accounts with
  | nil => exact Nat.le_refl _
  | cons op rest ih =>
    exact Nat.le_trans (next_payment_index_mono_op accounts op orgId)
      (ih (applyAccountOp accounts op))

theorem next_payment_index_strict_create (accounts : List PaymentAccount)
    (tmpl : PaymentAccount) :
    next_payment_index_for_org accounts tmpl.orgId <
      next_payment_index_for_org (create_payment_account accounts tmpl) tmpl.orgId := by
  have hmem :
      ({ tmpl with paymentIndex := next_payment_index_for_org accounts tmpl.orgId } :
          PaymentAccount) ∈ create_payment_account accounts tmpl := by
    simp [create_payment_account]
  have := next_payment_index_gt (create_payment_account accounts tmpl) tmpl.orgId _ hmem rfl
  simpa using this

/-! ## Branch lemmas for the resolution handler -/

theorem resolve_upi_invalid_format (dec : DecOracle) (secret : List Nat) (db : Db)
    (user : User) (u : List Char) (rail : Rail) (hupper : u.map Char.toUpper = u)
    (hcv : is_user_verified db user.id = true)
    (hval : validate_upi_format u = false) :
    resolve_upi dec secret db user u rail = RouteResult.http 400 "Invalid UPI format" := by
  rw [resolve_upi, hupper]
  simp [hcv, hval]

theorem resolve_upi_parse_error (dec : DecOracle) (secret : List Nat) (db : Db) (user : User)
    (u : List Char) (rail : Rail) (msg : String) (hupper : u.map Char.toUpper = u)
    (hcv : is_user_verified db user.id = true)
    (hval : validate_upi_format u = true)
    (hchild : get_child_upi_by_value db u = none)
    (hparse : parse_upi u = Except.error msg) :
    resolve_upi dec secret db user u rail = RouteResult.http 400 msg := by
  rw [resolve_upi, hupper]
  simp [hcv, hval, hchild, hparse]

theorem resolve_upi_org_notfound (dec : DecOracle) (secret : List Nat) (db : Db)
    (user : User) (u : List Char) (rail : Rail) (p : ParsedUPI)
    (hupper : u.map Char.toUpper = u)
    (hcv : is_user_verified db user.id = true)
    (hval : validate_upi_format u = true)
    (hchild : get_child_upi_by_value db u = none)
    (hparse : parse_upi u = Except.ok p)
    (horg : get_organization_by_upi db u = none) :
    resolve_upi dec secret db user u rail = RouteResult.http 404 "UPI not found" := by
  rw [resolve_upi, hupper]
  simp [hcv, hval, hchild, hparse, horg]

theorem resolve_upi_org_branch (dec : DecOracle) (secret : List Nat) (db : Db) (user : User)
    (u : List Char) (rail : Rail) (p : ParsedUPI) (org : Org) (owner : User)
    (hupper : u.map Char.toUpper = u)
    (hcv : is_user_verified db user.id = true)
    (hval : validate_upi_format u = true)
    (hchild : get_child_upi_by_value db u = none)
    (hparse : parse_upi u = Except.ok p)
    (horg : get_organization_by_upi db u = some org)
    (hstat : (org.status == "deactivated") = false)
    (howner : get_user_by_id db org.userId = some owner)
    (hov : is_user_verified db owner.id = true)
    (hverify : verify_upi u owner.id secret = true) :
    resolve_upi dec secret db user u rail =
      match
        get_payment_account_by_org_and_index dec db org.id p.payment_index (railStr rail)
      with
      | none => RouteResult.http 404 "Payment details not found for this rail"
      | some account => RouteResult.ok u rail (assembleCoordinates rail account) := by
  rw [resolve_upi, hupper]
  simp [hcv, hval, hchild, hparse, horg, hstat, howner, hov, hverify]

theorem resolve_upi_child_gone (dec : DecOracle) (secret : List Nat) (db : Db) (user : User)
    (u : List Char) (rail : Rail) (child : ChildUpi)
    (hupper : u.map Char.toUpper = u)
    (hcv : is_user_verified db user.id = true)
    (hval : validate_upi_format u = true)
    (hchild : get_child_upi_by_value db u = some child)
    (hstatus : (child.status == "active") = false) :
    resolve_upi dec secret db user u rail = RouteResult.http 410 "UPI is disabled" := by
  rw [resolve_upi, hupper]
  simp [hcv, hval, hchild, bne, hstatus]

theorem resolve_upi_child_success (dec : DecOracle) (secret : List Nat) (db : Db)
    (user : User) (u : List Char) (rail : Rail) (child : ChildUpi) (org : Org) (owner : User)
    (account : DecryptedAccount)
    (hupper : u.map Char.toUpper = u)
    (hcv : is_user_verified db user.id = true)
    (hval : validate_upi_format u = true)
    (hchild : get_child_upi_by_value db u = some child)
    (hstatus : (child.status == "active") = true)
    (horg : get_organization_by_id db child.orgId = some org)
    (howner : get_user_by_id db org.userId = some owner)
    (hov : is_user_verified db owner.id = true)
    (hverify : verify_upi u owner.id secret = true)
    (hacct : get_payment_account_by_id dec db child.paymentAccountId = some account)
    (hrail : (account.rail == railStr rail) = true) :
    resolve_upi dec secret db user u rail =
      RouteResult.ok u rail (assembleCoordinates rail account) := by
  rw [resolve_upi, hupper]
  simp [hcv, hval, hchild, bne, hstatus, horg, howner, hov, hverify, hacct, hrail]

/-! ## Further codec helpers -/

theorem upper_id_of_alphabet {u : List Char} (h : ∀ c ∈ u, c ∈ ALPHABET) :
    u.map Char.toUpper = u :=
  (List.map_congr_left fun c hc => mem_alphabet_toUpper (h c hc)).trans u.map_id

theorem parse_upi_error_msg {u : List Char} {m : String} (h : parse_upi u = Except.error m) :
    m = "Invalid UPI format" := by
  by_cases hval : validate_upi_format u = true
  · cases hpw : parsePaymentIndex ((u.drop 2).take 2) with
    | none =>
      rw [parse_upi_nondigit hval hpw] at h
      exact ((Except.error.injEq _ _).mp h).symm
    | some pi =>
      rw [parse_upi_digits hval hpw] at h
      exact absurd h (by simp)
  · rw [parse_upi_invalid (Bool.not_eq_true _ ▸ hval)] at h
    exact ((Except.error.injEq _ _).mp h).symm

theorem b32_getD_mem_b32Alphabet (v : Nat) : b32Alphabet.getD v 'A' ∈ b32Alphabet := by
  by_cases hv : v < b32Alphabet.length
  · rw [List.getD_eq_getElem?_getD, List.getElem?_eq_getElem hv]
    exact List.getElem_mem hv
  · rw [List.getD_eq_getElem?_getD, List.getElem?_eq_none (Nat.le_of_not_lt hv)]
    decide

theorem mem_signatureOf_b32 {c : Char} {ns core : List Char} {payment_index : Int}
    {secret : List Nat} (hc : c ∈ signatureOf ns core payment_index secret) :
    c ∈ b32Alphabet := by
  have hc' := List.take_subset _ _ hc
  simp only [b32encodeStripped, List.mem_map, List.mem_range] at hc'
  obtain ⟨i, _, rfl⟩ := hc'
  exact b32_getD_mem_b32Alphabet _

theorem generate_upi_length {tag : List Char} {pi : Nat} {uid : Nat} {secret : List Nat}
    (hpi : pi < 100) : (generate_upi tag (pi : Int) uid secret).length = 14 :=
  validate_length (validate_generate_upi hpi)

theorem generate_upi_drop8 {tag : List Char} {pi : Nat} {uid : Nat} {secret : List Nat}
    (hpi : pi < 100) :
    (generate_upi tag (pi : Int) uid secret).drop 8 =
      signatureOf (namespace_for_user uid secret) (extract_core_segment tag) (pi : Int)
        secret := by
  obtain ⟨hflen, -, -⟩ := format02d_spec pi hpi
  obtain ⟨-, -, -, hw4⟩ :=
    append4_windows (namespace_for_user uid secret) (format02d (pi : Int))
      (extract_core_segment tag)
      (signatureOf (namespace_for_user uid secret) (extract_core_segment tag) (pi : Int)
        secret)
      (namespace_for_user_length _ _) hflen (extract_core_segment_length _)
  exact hw4

theorem generate_upi_window2 {tag : List Char} {pi : Nat} {uid : Nat} {secret : List Nat}
    (hpi : pi < 100) :
    ((generate_upi tag (pi : Int) uid secret).drop 2).take 2 = format02d (pi : Int) := by
  obtain ⟨hflen, -, -⟩ := format02d_spec pi hpi
  obtain ⟨-, hw2, -, -⟩ :=
    append4_windows (namespace_for_user uid secret) (format02d (pi : Int))
      (extract_core_segment tag)
      (signatureOf (namespace_for_user uid secret) (extract_core_segment tag) (pi : Int)
        secret)
      (namespace_for_user_length _ _) hflen (extract_core_segment_length _)
  exact hw2

/-! ## The concrete test scenarios of the specification (section 8)

The spec's testable properties fix one owner, one issued identifier and
one stored payment account.  `orgScenarioDb` stores the identifier as the
organization's primary UPI (direct binding); `childScenarioDb` stores it
as a child binding with a chosen child status and account status. -/

theorem orgScenario_success (dec : DecOracle) (secret : List Nat) (uid cid : Nat)
    (tag : List Char) (pi : Nat) (rail : Rail) (fields : List (String × String))
    (enc : List (String × EncBlob)) (hpi : pi ≤ 99) :
    resolve_upi dec secret (orgScenarioDb secret uid cid tag pi rail fields enc) { id := cid }
        (generate_upi tag (pi : Int) uid secret) rail =
      RouteResult.ok (generate_upi tag (pi : Int) uid secret) rail
        (assembleCoordinates rail
          (decrypt_payment_account dec (theAccount pi rail "active" fields enc))) := by
  have hpi' : pi < 100 := by omega
  have hstat : (("active" : String) == "deactivated") = false := by decide
  have hval := @validate_generate_upi tag pi uid secret hpi'
  rw [resolve_upi_org_branch dec secret _ _ _ rail
    { ns := namespace_for_user uid secret
      core_entity_id := "CORE-".toList ++ extract_core_segment tag
      payment_index := pi
      signature := signatureOf (namespace_for_user uid secret) (extract_core_segment tag)
        (pi : Int) secret }
    { id := 1, upi := generate_upi tag (pi : Int) uid secret, userId := uid,
      status := "active" }
    { id := uid }
    (upper_id_of_alphabet (validate_mem hval))
    (by simp [is_user_verified, orgScenarioDb, List.contains, List.elem_eq_mem])
    hval
    (by simp [get_child_upi_by_value, orgScenarioDb])
    (parse_generate_upi hpi')
    (by simp [get_organization_by_upi, orgScenarioDb, List.find?])
    hstat
    (by simp [get_user_by_id, orgScenarioDb, List.find?])
    (by simp [is_user_verified, orgScenarioDb, List.contains, List.elem_eq_mem])
    (verify_generate_upi hpi')]
  simp [get_payment_account_by_org_and_index, orgScenarioDb, theAccount, List.find?]

theorem validate_of_parts {u : List Char} (hlen : u.length = 14)
    (hmem : ∀ c ∈ u, c ∈ ALPHABET) : validate_upi_format u = true := by
  rw [validate_upi_format, Bool.and_eq_true]
  exact ⟨beq_iff_eq.mpr (by rw [hlen]; rfl),
    List.all_eq_true.mpr fun c hc => List.elem_iff.mpr (hmem c hc)⟩

theorem orgScenario_other_fails (dec : DecOracle) (secret : List Nat) (uid cid : Nat)
    (tag : List Char) (pi : Nat) (rail : Rail) (fields : List (String × String))
    (enc : List (String × EncBlob)) (u' : List Char)
    (hlen : u'.length = 14)
    (hmem : ∀ c ∈ u', c ∈ ALPHABET)
    (hne : u' ≠ generate_upi tag (pi : Int) uid secret) :
    resolve_upi dec secret (orgScenarioDb secret uid cid tag pi rail fields enc) { id := cid }
        u' rail =
      RouteResult.http 400 "Invalid UPI format" ∨
    resolve_upi dec secret (orgScenarioDb secret uid cid tag pi rail fields enc) { id := cid }
        u' rail =
      RouteResult.http 404 "UPI not found" := by
  have hval := validate_of_parts hlen hmem
  have hupper := upper_id_of_alphabet hmem
  have hcv : is_user_verified (orgScenarioDb secret uid cid tag pi rail fields enc) cid =
      true := by
    simp [is_user_verified, orgScenarioDb, List.contains, List.elem_eq_mem]
  have hchild :
      get_child_upi_by_value (orgScenarioDb secret uid cid tag pi rail fields enc) u' =
        none := by
    simp [get_child_upi_by_value, orgScenarioDb]
  cases hp : parse_upi u' with
  | error msg =>
    left
    obtain rfl := parse_upi_error_msg hp
    exact resolve_upi_parse_error dec secret _ _ _ rail _ hupper hcv hval hchild hp
  | ok p =>
    right
    refine resolve_upi_org_notfound dec secret _ _ _ rail p hupper hcv hval hchild hp ?_
    simp only [get_organization_by_upi, orgScenarioDb, List.find?,
      beq_eq_false_iff_ne.mpr (Ne.symm hne)]

theorem childScenario_gone (dec : DecOracle) (secret : List Nat) (uid cid : Nat)
    (tag : List Char) (pi : Nat) (rail : Rail) (childStatus acctStatus : String)
    (fields : List (String × String)) (enc : List (String × EncBlob)) (hpi : pi ≤ 99)
    (hcs : (childStatus == "active") = false) :
    resolve_upi dec secret
        (childScenarioDb secret uid cid tag pi rail childStatus acctStatus fields enc)
        { id := cid } (generate_upi tag (pi : Int) uid secret) rail =
      RouteResult.http 410 "UPI is disabled" := by
  have hpi' : pi < 100 := by omega
  have hval := @validate_generate_upi tag pi uid secret hpi'
  exact resolve_upi_child_gone dec secret _ _ _ rail
    { orgId := 1, paymentAccountId := 7, upi := generate_upi tag (pi : Int) uid secret,
      status := childStatus }
    (upper_id_of_alphabet (validate_mem hval))
    (by simp [is_user_verified, childScenarioDb, List.contains, List.elem_eq_mem])
    hval
    (by simp [get_child_upi_by_value, childScenarioDb, List.find?])
    hcs

theorem childScenario_success (dec : DecOracle) (secret : List Nat) (uid cid : Nat)
    (tag : List Char) (pi : Nat) (rail : Rail) (childStatus acctStatus : String)
    (fields : List (String × String)) (enc : List (String × EncBlob)) (hpi : pi ≤ 99)
    (hcs : (childStatus == "active") = true) :
    resolve_upi dec secret
        (childScenarioDb secret uid cid tag pi rail childStatus acctStatus fields enc)
        { id := cid } (generate_upi tag (pi : Int) uid secret) rail =
      RouteResult.ok (generate_upi tag (pi : Int) uid secret) rail
        (assembleCoordinates rail
          (decrypt_payment_account dec (theAccount pi rail acctStatus fields enc))) := by
  have hpi' : pi < 100 := by omega
  have hval := @validate_generate_upi tag pi uid secret hpi'
  exact resolve_upi_child_success dec secret _ _ _ rail
    { orgId := 1, paymentAccountId := 7, upi := generate_upi tag (pi : Int) uid secret,
      status := childStatus }
    { id := 1, upi := [], userId := uid, status := "active" }
    { id := uid }
    (decrypt_payment_account dec (theAccount pi rail acctStatus fields enc))
    (upper_id_of_alphabet (validate_mem hval))
    (by simp [is_user_verified, childScenarioDb, List.contains, List.elem_eq_mem])
    hval
    (by simp [get_child_upi_by_value, childScenarioDb, List.find?])
    hcs
    (by simp [get_organization_by_id, childScenarioDb, List.find?])
    (by simp [get_user_by_id, childScenarioDb, List.find?])
    (by simp [is_user_verified, childScenarioDb, List.contains, List.elem_eq_mem])
    (verify_generate_upi hpi')
    (by simp [get_payment_account_by_id, childScenarioDb, theAccount, List.find?])
    (by simp [decrypt_payment_account, theAccount])

/-! ## Claims C2 and C3 -/

/-- C2: decoding the identifier produced by issuance recovers the same
payment index and a core segment equal to `_extract_core_segment` of the
core-entity tag (the parsed record re-wraps that window as
`"CORE-" + segment`). -/
theorem c2_issue_decode_roundtrip (secret : List Nat) (tag : List Char) (uid : Nat)
    (pi : Nat) (hpi : pi ≤ 99) :
    parse_upi (generate_upi tag (pi : Int) uid secret) =
      Except.ok
        { ns := namespace_for_user uid secret
          core_entity_id := "CORE-".toList ++ extract_core_segment tag
          payment_index := pi
          signature :=
            signatureOf (namespace_for_user uid secret) (extract_core_segment tag)
              (pi : Int) secret } :=
  parse_generate_upi (by omega)

/-- C2 witness at tag `CORE-AB12`, payment index 1, owner 42. -/
theorem c2_issue_decode_roundtrip_witness :
    (1 : Nat) ≤ 99 ∧
      parse_upi (generate_upi "CORE-AB12".toList ((1 : Nat) : Int) 42 [107]) =
        Except.ok
          { ns := namespace_for_user 42 [107]
            core_entity_id := "CORE-".toList ++ extract_core_segment "CORE-AB12".toList
            payment_index := 1
            signature :=
              signatureOf (namespace_for_user 42 [107])
                (extract_core_segment "CORE-AB12".toList) ((1 : Nat) : Int) [107] } :=
  ⟨by decide, c2_issue_decode_roundtrip [107] "CORE-AB12".toList 42 1 (by decide)⟩

/-- C3 counterexample: on `CORE-AB` the source pads on the right
(`AB00`), while the claim's left-padding derivation yields `00AB`. -/
theorem c3_counterexample_left_pad :
    extract_core_segment "CORE-AB".toList = "AB00".toList ∧
    coreSegmentClaimLeftPad "CORE-AB".toList = "00AB".toList ∧
    extract_core_segment "CORE-AB".toList ≠ coreSegmentClaimLeftPad "CORE-AB".toList := by
  decide

theorem afterFirstDash_eq_claim_strip (l : List Char) :
    afterFirstDash l =
      if '-' ∈ l then (l.dropWhile (fun c => c ≠ '-')).tail else l := by
  by_cases h : '-' ∈ l
  · rw [if_pos h]
    have hne : l.dropWhile (fun c => c ≠ '-') ≠ [] := by
      intro hnil
      rw [List.dropWhile_eq_nil_iff] at hnil
      have := hnil '-' h
      simp at this
    rw [afterFirstDash]
    cases hd : l.dropWhile (fun c => c ≠ '-') with
    | nil => exact absurd hd hne
    | cons a rest => rfl
  · rw [if_neg h, afterFirstDash]
    have hnil : l.dropWhile (fun c => c ≠ '-') = [] := by
      rw [List.dropWhile_eq_nil_iff]
      intro x hx
      simp only [decide_eq_true_eq]
      intro hcontra
      exact h (hcontra ▸ hx)
    rw [hnil]

/-- C3 amended: the derived core segment strips through the first dash,
uppercases, filters to the 36-character alphabet, then RIGHT-pads with
`'0'` if short or truncates if long, always yielding width 4. -/
theorem c3_core_segment_right_pad (core_entity_id : List Char) :
    extract_core_segment core_entity_id = coreSegmentClaimRightPad core_entity_id ∧
    (extract_core_segment core_entity_id).length = 4 := by
  refine ⟨?_, extract_core_segment_length _⟩
  simp only [extract_core_segment, coreSegmentClaimRightPad,
    afterFirstDash_eq_claim_strip]

/-! ## Claim C4 -/

theorem set_ne_of_getD_ne {l : List Char} {i : Nat} {c : Char} (hi : i < l.length)
    (hc : c ≠ l.getD i 'A') : l.set i c ≠ l := by
  intro he
  apply hc
  have h1 : (l.set i c)[i]? = some c := List.getElem?_set_self hi
  rw [he] at h1
  rw [List.getD_eq_getElem?_getD, h1]
  rfl

theorem orgScenario_other_404 (dec : DecOracle) (secret : List Nat) (uid cid : Nat)
    (tag : List Char) (pi : Nat) (rail : Rail) (fields : List (String × String))
    (enc : List (String × EncBlob)) (u' : List Char) (p : ParsedUPI)
    (hlen : u'.length = 14)
    (hmem : ∀ c ∈ u', c ∈ ALPHABET)
    (hne : u' ≠ generate_upi tag (pi : Int) uid secret)
    (hp : parse_upi u' = Except.ok p) :
    resolve_upi dec secret (orgScenarioDb secret uid cid tag pi rail fields enc) { id := cid }
        u' rail =
      RouteResult.http 404 "UPI not found" := by
  refine resolve_upi_org_notfound dec secret _ _ _ rail p (upper_id_of_alphabet hmem)
    (by simp [is_user_verified, orgScenarioDb, List.contains, List.elem_eq_mem])
    (validate_of_parts hlen hmem)
    (by simp [get_child_upi_by_value, orgScenarioDb]) hp ?_
  simp only [get_organization_by_upi, orgScenarioDb, List.find?,
    beq_eq_false_iff_ne.mpr (Ne.symm hne)]

/-- Position 13 of a freshly issued identifier (the last signature
character) carries a base-32 alphabet character. -/
theorem generate_upi_getD13_mem_b32 {tag : List Char} {pi : Nat} {uid : Nat}
    {secret : List Nat} (hpi : pi < 100) :
    (generate_upi tag (pi : Int) uid secret).getD 13 'A' ∈ b32Alphabet := by
  have hsiglen :
      (signatureOf (namespace_for_user uid secret) (extract_core_segment tag) (pi : Int)
          secret).length = 6 := signatureOf_length _ _ _ _
  have h5 :
      5 < (signatureOf (namespace_for_user uid secret) (extract_core_segment tag) (pi : Int)
          secret).length := by omega
  have hq :
      (generate_upi tag (pi : Int) uid secret)[13]? =
        ((generate_upi tag (pi : Int) uid secret).drop 8)[5]? := by
    rw [List.getElem?_drop]
  rw [List.getD_eq_getElem?_getD, hq, generate_upi_drop8 hpi,
    List.getElem?_eq_getElem h5]
  simp only [Option.getD_some]
  exact mem_signatureOf_b32 (List.getElem_mem h5)

/-- C4 (amended): in the direct/primary-binding scenario of the spec's
section 8, resolving the issued identifier against the stored rail
succeeds; resolving any string obtained by replacing one character with
a DIFFERENT alphabet character fails with 400 `Invalid UPI format` or
404 `UPI not found` and never succeeds; and the specific last-character
corruption `X[:-1] + "9"` yields the opaque 404 `UPI not found` (the
route has no distinct SignatureError outcome: a signature mismatch and a
genuinely absent identifier share the same 404 response). -/
theorem c4_resolve_flip_fails (dec : DecOracle) (secret : List Nat) (uid cid : Nat)
    (tag : List Char) (pi : Nat) (rail : Rail) (fields : List (String × String))
    (enc : List (String × EncBlob)) (hpi : pi ≤ 99) :
    (resolve_upi dec secret (orgScenarioDb secret uid cid tag pi rail fields enc)
        { id := cid } (generate_upi tag (pi : Int) uid secret) rail =
      RouteResult.ok (generate_upi tag (pi : Int) uid secret) rail
        (assembleCoordinates rail
          (decrypt_payment_account dec (theAccount pi rail "active" fields enc)))) ∧
    (∀ (i : Nat) (c : Char), i < 14 → c ∈ ALPHABET →
      c ≠ (generate_upi tag (pi : Int) uid secret).getD i 'A' →
      resolve_upi dec secret (orgScenarioDb secret uid cid tag pi rail fields enc)
          { id := cid } ((generate_upi tag (pi : Int) uid secret).set i c) rail =
        RouteResult.http 400 "Invalid UPI format" ∨
      resolve_upi dec secret (orgScenarioDb secret uid cid tag pi rail fields enc)
          { id := cid } ((generate_upi tag (pi : Int) uid secret).set i c) rail =
        RouteResult.http 404 "UPI not found") ∧
    (resolve_upi dec secret (orgScenarioDb secret uid cid tag pi rail fields enc)
        { id := cid }
        ((generate_upi tag (pi : Int) uid secret).dropLast ++ ['9']) rail =
      RouteResult.http 404 "UPI not found") := by
  have hpi' : pi < 100 := by omega
  have hval := @validate_generate_upi tag pi uid secret hpi'
  have hXlen := @generate_upi_length tag pi uid secret hpi'
  refine ⟨orgScenario_success dec secret uid cid tag pi rail fields enc hpi, ?_, ?_⟩
  · intro i c hi hc hne
    exact orgScenario_other_fails dec secret uid cid tag pi rail fields enc _
      (by rw [List.length_set]; exact hXlen)
      (fun x hx => by
        rcases List.mem_or_eq_of_mem_set hx with hmem | rfl
        · exact validate_mem hval x hmem
        · exact hc)
      (set_ne_of_getD_ne (hXlen ▸ hi) hne)
  · have hdl : (generate_upi tag (pi : Int) uid secret).dropLast =
        (generate_upi tag (pi : Int) uid secret).take 13 := by
      rw [List.dropLast_eq_take, hXlen]
    have hlen9 :
        ((generate_upi tag (pi : Int) uid secret).dropLast ++ ['9']).length = 14 := by
      rw [List.length_append, List.length_dropLast, hXlen]
      rfl
    have hmem9 :
        ∀ x ∈ (generate_upi tag (pi : Int) uid secret).dropLast ++ ['9'],
          x ∈ ALPHABET := by
      intro x hx
      rcases List.mem_append.mp hx with hmem | hmem
      · rw [hdl] at hmem
        exact validate_mem hval x (List.take_subset _ _ hmem)
      · rw [List.mem_singleton] at hmem
        subst hmem
        decide
    have hne9 :
        (generate_upi tag (pi : Int) uid secret).dropLast ++ ['9'] ≠
          generate_upi tag (pi : Int) uid secret := by
      intro he
      have hgd9 :
          ((generate_upi tag (pi : Int) uid secret).dropLast ++ ['9']).getD 13 'A' = '9' := by
        have hdll : (generate_upi tag (pi : Int) uid secret).dropLast.length = 13 := by
          rw [List.length_dropLast, hXlen]
        rw [List.getD_eq_getElem?_getD, List.getElem?_append_right hdll.le, hdll]
        rfl
      have hb32 := @generate_upi_getD13_mem_b32 tag pi uid secret hpi'
      rw [← he, hgd9] at hb32
      exact absurd hb32 (by decide)
    have hwin :
        (((generate_upi tag (pi : Int) uid secret).dropLast ++ ['9']).drop 2).take 2 =
          ((generate_upi tag (pi : Int) uid secret).drop 2).take 2 := by
      rw [hdl, List.drop_append_eq_append_drop, List.take_append_eq_append_take,
        List.drop_take, List.take_take]
      simp [List.length_take, List.length_drop, hXlen]
    have hpw9 :
        parsePaymentIndex
            ((((generate_upi tag (pi : Int) uid secret).dropLast ++ ['9']).drop 2).take 2) =
          some pi := by
      rw [hwin, generate_upi_window2 hpi']
      exact (format02d_spec pi hpi').2.2
    exact orgScenario_other_404 dec secret uid cid tag pi rail fields enc _ _ hlen9 hmem9
      hne9 (parse_upi_digits (validate_of_parts hlen9 hmem9) hpw9)

/-- C4 witness: the concrete scenario of spec section 8 (owner 42, tag
`CORE-AB12`, payment index 1, rail ACH): resolution of the issued
identifier succeeds, a concrete single-character flip fails, and the
last-character corruption yields 404. -/
theorem c4_resolve_flip_fails_witness :
    (resolve_upi decIdentity [107]
        (orgScenarioDb [107] 42 42 "CORE-AB12".toList 1 Rail.ACH
          [("bank_name", "First Bank")] [])
        { id := 42 } (generate_upi "CORE-AB12".toList ((1 : Nat) : Int) 42 [107]) Rail.ACH =
      RouteResult.ok (generate_upi "CORE-AB12".toList ((1 : Nat) : Int) 42 [107]) Rail.ACH
        (assembleCoordinates Rail.ACH
          (decrypt_payment_account decIdentity
            (theAccount 1 Rail.ACH "active" [("bank_name", "First Bank")] [])))) ∧
    (resolve_upi decIdentity [107]
        (orgScenarioDb [107] 42 42 "CORE-AB12".toList 1 Rail.ACH
          [("bank_name", "First Bank")] [])
        { id := 42 }
        ((generate_upi "CORE-AB12".toList ((1 : Nat) : Int) 42 [107]).set 0 '0') Rail.ACH =
      RouteResult.http 400 "Invalid UPI format" ∨
     resolve_upi decIdentity [107]
        (orgScenarioDb [107] 42 42 "CORE-AB12".toList 1 Rail.ACH
          [("bank_name", "First Bank")] [])
        { id := 42 }
        ((generate_upi "CORE-AB12".toList ((1 : Nat) : Int) 42 [107]).set 0 '0') Rail.ACH =
      RouteResult.http 404 "UPI not found") ∧
    (resolve_upi decIdentity [107]
        (orgScenarioDb [107] 42 42 "CORE-AB12".toList 1 Rail.ACH
          [("bank_name", "First Bank")] [])
        { id := 42 }
        ((generate_upi "CORE-AB12".toList ((1 : Nat) : Int) 42 [107]).dropLast ++ ['9'])
        Rail.ACH =
      RouteResult.http 404 "UPI not found") :=
  ⟨(c4_resolve_flip_fails decIdentity [107] 42 42 "CORE-AB12".toList 1 Rail.ACH
      [("bank_name", "First Bank")] [] (by decide)).1,
   (c4_resolve_flip_fails decIdentity [107] 42 42 "CORE-AB12".toList 1 Rail.ACH
      [("bank_name", "First Bank")] [] (by decide)).2.1 0 '0' (by decide) (by decide)
     (by decide),
   (c4_resolve_flip_fails decIdentity [107] 42 42 "CORE-AB12".toList 1 Rail.ACH
      [("bank_name", "First Bank")] [] (by decide)).2.2⟩

/-- C4 counterexample to the claim as stated: corrupting the last
signature character does NOT return a distinct SignatureError — the code
returns the same opaque 404 `UPI not found` that a never-issued,
format-valid identifier receives. -/
theorem c4_counterexample_no_signature_error :
    resolve_upi decIdentity [107]
        (orgScenarioDb [107] 42 42 "CORE-AB12".toList 1 Rail.ACH
          [("bank_name", "First Bank")] [])
        { id := 42 }
        ((generate_upi "CORE-AB12".toList ((1 : Nat) : Int) 42 [107]).dropLast ++ ['9'])
        Rail.ACH =
      RouteResult.http 404 "UPI not found" ∧
    resolve_upi decIdentity [107]
        (orgScenarioDb [107] 42 42 "CORE-AB12".toList 1 Rail.ACH
          [("bank_name", "First Bank")] [])
        { id := 42 } "AA00AAAAAAAAAA".toList Rail.ACH =
      RouteResult.http 404 "UPI not found" := by
  constructor
  · decide
  · decide

/-! ## Claim C5 -/

theorem get_by_org_and_index_not_disabled (dec : DecOracle) (db : Db)
    (orgId paymentIndex : Nat) (rail : String) (a : DecryptedAccount)
    (h : get_payment_account_by_org_and_index dec db orgId paymentIndex rail = some a) :
    a.status ≠ "disabled" := by
  simp only [get_payment_account_by_org_and_index, Option.map_eq_some'] at h
  obtain ⟨row, hfind, rfl⟩ := h
  have hp := List.find?_some hfind
  simp only [Bool.and_eq_true, bne_iff_ne] at hp
  exact hp.2

/-- C5 (amended): a child-binding record whose status is not `active`
makes resolution of its identifier return 410 Gone while the identifier
string itself stays format-valid and signature-valid; and in the
primary/org binding path the account lookup excludes `status =
'disabled'` rows, so a disabled account's coordinates are never returned
there.  (In the child-binding path the account's own status is NOT
checked — see the counterexample.) -/
theorem c5_disabled_fails_closed :
    (∀ (dec : DecOracle) (secret : List Nat) (uid cid : Nat) (tag : List Char) (pi : Nat)
        (rail : Rail) (childStatus acctStatus : String) (fields : List (String × String))
        (enc : List (String × EncBlob)),
      pi ≤ 99 → (childStatus == "active") = false →
        resolve_upi dec secret
            (childScenarioDb secret uid cid tag pi rail childStatus acctStatus fields enc)
            { id := cid } (generate_upi tag (pi : Int) uid secret) rail =
          RouteResult.http 410 "UPI is disabled" ∧
        validate_upi_format (generate_upi tag (pi : Int) uid secret) = true ∧
        verify_upi (generate_upi tag (pi : Int) uid secret) uid secret = true) ∧
    (∀ (dec : DecOracle) (db : Db) (orgId paymentIndex : Nat) (rail : String)
        (a : DecryptedAccount),
      get_payment_account_by_org_and_index dec db orgId paymentIndex rail = some a →
        a.status ≠ "disabled") := by
  constructor
  · intro dec secret uid cid tag pi rail childStatus acctStatus fields enc hpi hcs
    have hpi' : pi < 100 := by omega
    exact ⟨childScenario_gone dec secret uid cid tag pi rail childStatus acctStatus fields
        enc hpi hcs,
      @validate_generate_upi tag pi uid secret hpi', verify_generate_upi hpi'⟩
  · exact get_by_org_and_index_not_disabled

/-- C5 witness: disabling the child binding of the section-8 scenario
turns resolution into 410 Gone while the identifier still validates and
verifies; and a concrete org-and-index lookup never yields a disabled
account. -/
theorem c5_disabled_fails_closed_witness :
    (resolve_upi decIdentity [107]
        (childScenarioDb [107] 42 42 "CORE-AB12".toList 1 Rail.ACH "disabled" "active"
          [("bank_name", "First Bank")] [])
        { id := 42 } (generate_upi "CORE-AB12".toList ((1 : Nat) : Int) 42 [107]) Rail.ACH =
      RouteResult.http 410 "UPI is disabled" ∧
      validate_upi_format (generate_upi "CORE-AB12".toList ((1 : Nat) : Int) 42 [107]) =
        true ∧
      verify_upi (generate_upi "CORE-AB12".toList ((1 : Nat) : Int) 42 [107]) 42 [107] =
        true) ∧
    (decrypt_payment_account decIdentity
        (theAccount 1 Rail.ACH "active" [("bank_name", "First Bank")] [])).status ≠
      "disabled" :=
  ⟨c5_disabled_fails_closed.1 decIdentity [107] 42 42 "CORE-AB12".toList 1 Rail.ACH
      "disabled" "active" [("bank_name", "First Bank")] [] (by decide) (by decide),
   c5_disabled_fails_closed.2 decIdentity
     (orgScenarioDb [107] 42 42 "CORE-AB12".toList 1 Rail.ACH
       [("bank_name", "First Bank")] [])
     1 1 "ACH" _ (by decide)⟩

/-- C5 counterexample to the claim as stated: through an ACTIVE child
binding the code returns the coordinates of an account whose status is
`disabled` — `get_payment_account_by_id` has no status filter, so a
disabled pointed-to account does not fail closed in the child path. -/
theorem c5_counterexample_disabled_account_resolves :
    resolve_upi decIdentity [107]
        (childScenarioDb [107] 42 42 "CORE-AB12".toList 1 Rail.ACH "active" "disabled"
          [("bank_name", "First Bank")]
          [("ach_routing", { n := "n1", c := "R0111" }),
           ("ach_account", { n := "n2", c := "A0222" })])
        { id := 42 } (generate_upi "CORE-AB12".toList ((1 : Nat) : Int) 42 [107]) Rail.ACH =
      RouteResult.ok (generate_upi "CORE-AB12".toList ((1 : Nat) : Int) 42 [107]) Rail.ACH
        [("routing_number", some "R0111"), ("account_number", some "A0222"),
         ("bank_name", some "First Bank")] ∧
    (theAccount 1 Rail.ACH "disabled" [("bank_name", "First Bank")]
        [("ach_routing", { n := "n1", c := "R0111" }),
         ("ach_account", { n := "n2", c := "A0222" })]).status = "disabled" := by
  constructor
  · decide
  · decide

/-! ## Claim C6 -/

theorem assembleCoordinates_keys (rail : Rail) (account : DecryptedAccount) :
    (assembleCoordinates rail account).map Prod.fst = railFieldNames rail := by
  cases rail <;> rfl

theorem resolve_ok_coords_keys (dec : DecOracle) (secret : List Nat) (db : Db) (user : User)
    (u : List Char) (rail : Rail) (v : List Char) (r : Rail)
    (coords : List (String × Option String))
    (h : resolve_upi dec secret db user u rail = RouteResult.ok v r coords) :
    coords.map Prod.fst = railFieldNames r := by
  simp only [resolve_upi] at h
  repeat' split at h
  all_goals
    first
    | exact RouteResult.noConfusion h
    | (injection h with h1 h2 h3
       subst h2
       rw [← h3]
       exact assembleCoordinates_keys _ _)

/-- C6 (amended): every successful resolution returns a coordinate
record whose keys are exactly the rail-relevant fields, and fields not
relevant to the rail are never returned; the record-decryption step,
however, decrypts EVERY encrypted field stored on the fetched account,
whatever the requested rail (decryption is not rail-scoped). -/
theorem c6_coordinates_exactly_rail_fields :
    (∀ (dec : DecOracle) (secret : List Nat) (db : Db) (user : User) (u : List Char)
        (rail : Rail) (v : List Char) (r : Rail) (coords : List (String × Option String)),
      resolve_upi dec secret db user u rail = RouteResult.ok v r coords →
        coords.map Prod.fst = railFieldNames r) ∧
    (∀ (dec : DecOracle) (row : PaymentAccount) (g : String) (blob : EncBlob) (v : String),
      (row.enc.map Prod.fst).Nodup → (g, blob) ∈ row.enc → dec blob.n blob.c = some v →
        (decrypt_payment_account dec row).fields.lookup g = some v) := by
  constructor
  · exact resolve_ok_coords_keys
  · intro dec row g blob v hnodup hmem hdec
    rw [decrypt_payment_account_fields, foldl_decStep_lookup dec row.enc row.fields g blob
      hmem hnodup, hdec]

/-- C6 witness: a successful concrete resolution carries exactly the ACH
field names, and a concrete encrypted field decrypts into the record. -/
theorem c6_coordinates_exactly_rail_fields_witness :
    ([("routing_number", (some "R0111" : Option String)),
        ("account_number", some "A0222"),
        ("bank_name", some "First Bank")].map Prod.fst =
      railFieldNames Rail.ACH) ∧
    (decrypt_payment_account decIdentity
        (theAccount 1 Rail.ACH "active" [("bank_name", "First Bank")]
          [("iban", { n := "n9", c := "IBANPLAINTEXT" })])).fields.lookup "iban" =
      some "IBANPLAINTEXT" :=
  ⟨c6_coordinates_exactly_rail_fields.1 decIdentity [107]
      (childScenarioDb [107] 42 42 "CORE-AB12".toList 1 Rail.ACH "active" "disabled"
        [("bank_name", "First Bank")]
        [("ach_routing", { n := "n1", c := "R0111" }),
         ("ach_account", { n := "n2", c := "A0222" })])
      { id := 42 } (generate_upi "CORE-AB12".toList ((1 : Nat) : Int) 42 [107]) Rail.ACH
      (generate_upi "CORE-AB12".toList ((1 : Nat) : Int) 42 [107]) Rail.ACH _ (by decide),
   c6_coordinates_exactly_rail_fields.2 decIdentity
     (theAccount 1 Rail.ACH "active" [("bank_name", "First Bank")]
       [("iban", { n := "n9", c := "IBANPLAINTEXT" })])
     "iban" { n := "n9", c := "IBANPLAINTEXT" } "IBANPLAINTEXT" (by decide) (by decide)
     (by decide)⟩

/-- C6 counterexample to "never decrypted": with rail ACH requested, the
record-decryption step used by resolution decrypts a stored `iban` field
(irrelevant to ACH) into the decrypted record, even though the returned
ACH coordinates omit it. -/
theorem c6_counterexample_irrelevant_field_decrypted :
    (decrypt_payment_account decIdentity
        (theAccount 1 Rail.ACH "active" [("bank_name", "First Bank")]
          [("iban", { n := "n9", c := "IBANPLAINTEXT" })])).fields.lookup "iban" =
      some "IBANPLAINTEXT" ∧
    "iban" ∉ railFieldNames Rail.ACH ∧
    resolve_upi decIdentity [107]
        (childScenarioDb [107] 42 42 "CORE-AB12".toList 1 Rail.ACH "active" "active"
          [("bank_name", "First Bank")] [("iban", { n := "n9", c := "IBANPLAINTEXT" })])
        { id := 42 } (generate_upi "CORE-AB12".toList ((1 : Nat) : Int) 42 [107]) Rail.ACH =
      RouteResult.ok (generate_upi "CORE-AB12".toList ((1 : Nat) : Int) 42 [107]) Rail.ACH
        [("routing_number", none), ("account_number", none),
         ("bank_name", some "First Bank")] := by
  refine ⟨by decide, by decide, by decide⟩

/-! ## Claim C7 -/

theorem char_isDigit_toNat {c : Char} (h : c.isDigit = true) :
    48 ≤ c.toNat ∧ c.toNat ≤ 57 := by
  simp only [Char.isDigit, Bool.and_eq_true, decide_eq_true_eq] at h
  exact ⟨h.1, h.2⟩

theorem parsePaymentIndex_le99 {cs : List Char} {pi : Nat} (hlen : cs.length = 2)
    (h : parsePaymentIndex cs = some pi) : pi ≤ 99 := by
  match cs, hlen with
  | [a, b], _ =>
    by_cases hd : ([a, b].all Char.isDigit) = true
    · rw [parsePaymentIndex, if_pos hd] at h
      simp only [List.foldl_cons, List.foldl_nil, Option.some.injEq] at h
      simp only [List.all_cons, List.all_nil, Bool.and_eq_true] at hd
      obtain ⟨ha1, ha2⟩ := char_isDigit_toNat hd.1
      obtain ⟨hb1, hb2⟩ := char_isDigit_toNat hd.2.1
      omega
    · rw [parsePaymentIndex, if_neg hd] at h
      exact absurd h (by simp)

/-- C7: decoding validates in order — a string failing the length-14 or
alphabet check is rejected with the format error before any sub-field is
parsed; only then is the 2-character payment-index window read as a
decimal in 0..99, and a non-digit window (which can pass the alphabet
check, witness the final conjunct) raises the same format error rather
than crashing. -/
theorem c7_validation_order (u : List Char) :
    (validate_upi_format u = false → parse_upi u = Except.error "Invalid UPI format") ∧
    (validate_upi_format u = true →
      (parsePaymentIndex ((u.drop 2).take 2) = none →
        parse_upi u = Except.error "Invalid UPI format") ∧
      (∀ pi : Nat, parsePaymentIndex ((u.drop 2).take 2) = some pi →
        pi ≤ 99 ∧
        parse_upi u =
          Except.ok
            { ns := u.take 2, core_entity_id := "CORE-".toList ++ (u.drop 4).take 4,
              payment_index := pi, signature := u.drop 8 })) ∧
    (∃ w : List Char, validate_upi_format w = true ∧
      parse_upi w = Except.error "Invalid UPI format") := by
  refine ⟨fun hval => parse_upi_invalid hval,
    fun hval =>
      ⟨fun hpw => parse_upi_nondigit hval hpw,
       fun pi hpw =>
        ⟨parsePaymentIndex_le99
          (by simp [List.length_take, List.length_drop, validate_length hval]) hpw,
         parse_upi_digits hval hpw⟩⟩,
    ⟨"AAAAAAAAAAAAAA".toList, by decide, parse_upi_nondigit (by decide) (by decide)⟩⟩

/-- C7 witness: a short garbage string is rejected by the format check. -/
theorem c7_validation_order_witness :
    parse_upi ['A'] = Except.error "Invalid UPI format" :=
  (c7_validation_order ['A']).1 (by decide)

/-! ## Claim C8 -/

/-- C8: a decryption failure on one encrypted field is swallowed — that
field is omitted from the decrypted record (no plaintext column shadows
it) while every other field that decrypts successfully appears; nothing
propagates (the decryption step is a total function). -/
theorem c8_decrypt_failure_swallowed (dec : DecOracle) (row : PaymentAccount) (f : String)
    (blob : EncBlob) (hnodup : (row.enc.map Prod.fst).Nodup)
    (hbase : ∀ e ∈ row.enc, row.fields.lookup e.1 = none)
    (hf : (f, blob) ∈ row.enc) (hfail : dec blob.n blob.c = none) :
    (decrypt_payment_account dec row).fields.lookup f = none ∧
    ∀ (g : String) (gblob : EncBlob) (v : String), (g, gblob) ∈ row.enc →
      dec gblob.n gblob.c = some v →
      (decrypt_payment_account dec row).fields.lookup g = some v := by
  constructor
  · rw [decrypt_payment_account_fields,
      foldl_decStep_lookup dec row.enc row.fields f blob hf hnodup, hfail]
    exact hbase (f, blob) hf
  · intro g gblob v hg hdec
    rw [decrypt_payment_account_fields,
      foldl_decStep_lookup dec row.enc row.fields g gblob hg hnodup, hdec]

/-- C8 witness: with a two-field record whose `ach_routing` ciphertext is
corrupt, decryption omits `ach_routing` and still decrypts `iban`. -/
theorem c8_decrypt_failure_swallowed_witness :
    (decrypt_payment_account decFailBad
        (theAccount 1 Rail.ACH "active" [("bank_name", "B")]
          [("ach_routing", { n := "bad", c := "X" }),
           ("iban", { n := "ok", c := "IB" })])).fields.lookup "ach_routing" = none ∧
    (decrypt_payment_account decFailBad
        (theAccount 1 Rail.ACH "active" [("bank_name", "B")]
          [("ach_routing", { n := "bad", c := "X" }),
           ("iban", { n := "ok", c := "IB" })])).fields.lookup "iban" = some "IB" :=
  ⟨(c8_decrypt_failure_swallowed decFailBad
      (theAccount 1 Rail.ACH "active" [("bank_name", "B")]
        [("ach_routing", { n := "bad", c := "X" }), ("iban", { n := "ok", c := "IB" })])
      "ach_routing" { n := "bad", c := "X" } (by decide) (by decide) (by decide)
      (by decide)).1,
   (c8_decrypt_failure_swallowed decFailBad
      (theAccount 1 Rail.ACH "active" [("bank_name", "B")]
        [("ach_routing", { n := "bad", c := "X" }), ("iban", { n := "ok", c := "IB" })])
      "ach_routing" { n := "bad", c := "X" } (by decide) (by decide) (by decide)
      (by decide)).2 "iban" { n := "ok", c := "IB" } "IB" (by decide) (by decide)⟩

/-! ## Claim C9 -/

/-- C9: the allocator returns a payment index strictly greater than
every existing index of the organization's scope — disabled rows
included, since the query has no status filter — and equal to the
maximum existing index plus one (or 1 on an empty scope); it is
monotone along any sequence of creations and disablings (rows are never
deleted), and strictly increases across each creation, so an allocated
index is never reused. -/
theorem c9_payment_index_allocation :
    (∀ (accounts : List PaymentAccount) (orgId : Nat) (r : PaymentAccount),
      r ∈ accounts → r.orgId = orgId →
        r.paymentIndex < next_payment_index_for_org accounts orgId) ∧
    (∀ (accounts : List PaymentAccount) (orgId : Nat),
      next_payment_index_for_org accounts orgId = 1 ∨
        ∃ r ∈ accounts, r.orgId = orgId ∧
          next_payment_index_for_org accounts orgId = r.paymentIndex + 1) ∧
    (∀ (accounts : List PaymentAccount) (ops : List AccountOp) (orgId : Nat),
      next_payment_index_for_org accounts orgId ≤
        next_payment_index_for_org (applyAccountOps accounts ops) orgId) ∧
    (∀ (accounts : List PaymentAccount) (tmpl : PaymentAccount),
      next_payment_index_for_org accounts tmpl.orgId <
        next_payment_index_for_org (create_payment_account accounts tmpl) tmpl.orgId) :=
  ⟨next_payment_index_gt, next_payment_index_max_char, next_payment_index_mono_ops,
   next_payment_index_strict_create⟩

/-- C9 witness: a disabled account with index 3 still forces the next
allocation above 3. -/
theorem c9_payment_index_allocation_witness :
    (theAccount 3 Rail.ACH "disabled" [] []).paymentIndex <
      next_payment_index_for_org [theAccount 3 Rail.ACH "disabled" [] []] 1 :=
  c9_payment_index_allocation.1 [theAccount 3 Rail.ACH "disabled" [] []] 1
    (theAccount 3 Rail.ACH "disabled" [] []) (by decide) (by decide)

/-! ## Claim C10 -/

theorem generate_upi_length_eq (tag : List Char) (pi : Int) (uid : Nat)
    (secret : List Nat) :
    (generate_upi tag pi uid secret).length = 12 + (format02d pi).length := by
  simp [generate_upi, List.length_append, namespace_for_user_length,
    extract_core_segment_length, signatureOf_length]
  omega

/-- C10: issuance does not range-check its payment index — the produced
string passes `validate_upi_format` exactly when the index is in 0..99;
an index above 99 lengthens the string past 14, a negative one inserts
`'-'` (outside the alphabet), and in either out-of-range case
`parse_upi` raises the format error on the produced string. -/
theorem c10_payment_index_range (secret : List Nat) (tag : List Char) (uid : Nat)
    (pi : Int) :
    (validate_upi_format (generate_upi tag pi uid secret) = true ↔ 0 ≤ pi ∧ pi ≤ 99) ∧
    (99 < pi → 14 < (generate_upi tag pi uid secret).length) ∧
    (pi < 0 → '-' ∈ generate_upi tag pi uid secret) ∧
    (¬(0 ≤ pi ∧ pi ≤ 99) →
      parse_upi (generate_upi tag pi uid secret) = Except.error "Invalid UPI format") := by
  have hlen12 := generate_upi_length_eq tag pi uid secret
  have hneg : pi < 0 → '-' ∈ generate_upi tag pi uid secret := by
    intro h
    simp [generate_upi, format02d_neg h]
  have hbig : 99 < pi → 14 < (generate_upi tag pi uid secret).length := by
    intro h
    have h3 := format02d_length_ge_three (by omega : (100 : Int) ≤ pi)
    omega
  have hvalid_iff :
      validate_upi_format (generate_upi tag pi uid secret) = true ↔ 0 ≤ pi ∧ pi ≤ 99 := by
    constructor
    · intro hval
      rcases lt_or_le pi 0 with hneg0 | h0
      · exact absurd (validate_mem hval '-' (hneg hneg0)) (by decide)
      · rcases le_or_lt pi 99 with h99 | h99
        · exact ⟨h0, h99⟩
        · have := hbig h99
          have hl := validate_length hval
          omega
    · rintro ⟨h0, h99⟩
      have hcast : pi = ((pi.toNat : Nat) : Int) := (Int.toNat_of_nonneg h0).symm
      rw [hcast]
      exact validate_generate_upi (by omega)
  refine ⟨hvalid_iff, hbig, hneg, fun hcon => parse_upi_invalid ?_⟩
  rcases Bool.eq_false_or_eq_true (validate_upi_format (generate_upi tag pi uid secret))
    with hb | hb
  · exact absurd (hvalid_iff.mp hb) hcon
  · exact hb

/-- C10 witness: payment index 100 produces a string that fails to
decode with the format error. -/
theorem c10_payment_index_range_witness :
    parse_upi (generate_upi "CORE-X".toList 100 7 [1]) =
      Except.error "Invalid UPI format" :=
  (c10_payment_index_range [1] "CORE-X".toList 7 100).2.2.2 (by decide)

/-! ## Standard test vectors validating the crypto embedding -/

theorem sha256_empty_vector :
    sha256 [] =
      [227, 176, 196, 66, 152, 252, 28, 20, 154, 251, 244, 200, 153, 111,
       185, 36, 39, 174, 65, 228, 100, 155, 147, 76, 164, 149, 153, 27,
       120, 82, 184, 85] := by
  decide

theorem sha256_abc_vector :
    sha256 [97, 98, 99] =
      [186, 120, 22, 191, 143, 1, 207, 234, 65, 65, 64, 222, 93, 174,
       34, 35, 176, 3, 97, 163, 150, 23, 122, 156, 180, 16, 255, 97,
       242, 0, 21, 173] := by
  decide

/-- RFC 4231 test case 2 (key `Jefe`). -/
theorem hmac_sha256_rfc4231_case2 :
    hmacSha256 (strBytes "Jefe".toList)
        (strBytes "what do ya want for nothing?".toList) =
      [91, 220, 193, 70, 191, 96, 117, 78, 106, 4, 36, 38, 8, 149,
       117, 199, 90, 0, 63, 8, 157, 39, 57, 131, 157, 236, 88, 185,
       100, 236, 56, 67] := by
  decide

theorem b32encode_foo_vector :
    b32encodeStripped (strBytes "foo".toList) = "MZXW6".toList := by
  decide

end Aplite
